import Mathlib

/-!
Shallow embedding of the chess-server core (src/chessServer/index.js).

The server keeps two in-memory stores: a list of anonymous games
(ongoingGames, created by the newgame handler) and a registry of named
sessions (the sessions object, created by createSession and joined by
joinSession).  Each game pairs a student slot and a mentor slot with a
board position maintained by the external chess.js engine.

Modelling conventions:
- The Position Engine (chess.js) is external.  A position is modelled as
  the FEN string it was constructed from together with the list of moves
  accepted since construction; legality is a parameter (an arbitrary
  Boolean oracle), so every theorem holds for every engine.  The FEN
  serialization of a position is modelled by the position value itself
  (serialization is injective), so equality of broadcast payloads models
  byte-for-byte equality of serialized positions.
- Inbound payloads are modelled already parsed, with role drawn from the
  two-valued role type of the external interface (role is "student" or
  "mentor"); JSON parse-failure paths are outside the model.
- A JavaScript property access `slot.id` on an absent (undefined) slot
  throws a TypeError; handlers therefore return an optional error string
  next to the state and the emitted events.  Handlers never mutate state
  before such an access, so on error the state is returned unchanged.
- socket.io emission: `io.emit` broadcasts to every connected socket
  (target .all); `io.to(socket.id).emit` and `socket.emit` target the
  sender's own socket; `safeEmit` (defined in the source) emits to a
  socket id only when it is non-empty and a live connection exists for
  it, which we model with an explicit list of connected socket ids.
  `slot?.id` for an absent slot yields undefined, which safeEmit treats
  exactly like the empty string (both are falsy), so both are collapsed
  to "".
- `socket.join(sessionId)` (rooms) has no observable effect on any event
  delivery performed by this file's handlers and is not modelled.
- `registerSocketHandlers` comes from a module outside the repository
  snapshot; per the specification it contributes no handler of the event
  catalog modelled here.
-/

namespace ChessServer

/-- A candidate move: a from-square and a to-square. -/
structure MoveArg where
  fromSq : String
  toSq : String
deriving DecidableEq, Repr

/-- The engine's legality oracle: given the FEN a position was built from,
the moves accepted so far and a candidate move, decide acceptance.
All theorems are proved for an arbitrary oracle. -/
abbrev Legality := String → List MoveArg → MoveArg → Bool

/-- A Position-Engine state: the FEN it was constructed from plus the
moves accepted since construction (the engine's internal undo stack). -/
structure EnginePos where
  base : String
  moves : List MoveArg
deriving DecidableEq, Repr

/-- The standard initial FEN used by a fresh chess.js instance. -/
def initialFen : String :=
  "rnbqkbnr/pppppppp/8/8/8/8/PPPPPPPP/RNBQKBNR w KQkq - 0 1"

/-- `new Chess()`: a fresh engine at the initial position. -/
def chessNew : EnginePos := ⟨initialFen, []⟩

/-- `new Chess(state)`: an engine constructed from a serialized position;
its undo stack starts empty. -/
def chessFrom (s : String) : EnginePos := ⟨s, []⟩

/-- `pos.move({from, to})`: accepted moves extend the stack and yield the
new position; rejected moves yield nothing and leave the position as is. -/
def engineMove (legal : Legality) (p : EnginePos) (m : MoveArg) : Option EnginePos :=
  if legal p.base p.moves m then some ⟨p.base, p.moves ++ [m]⟩ else none

/-- `pos.undo()`: drop the most recently accepted move; with no prior
state this is a no-op (chess.js undo returns null without change). -/
def engineUndo (p : EnginePos) : EnginePos := ⟨p.base, p.moves.dropLast⟩

/-- One participant slot: username, bound socket id ("" when unset on the
anonymous path), and assigned color. -/
structure Participant where
  username : String
  id : String
  color : String
deriving DecidableEq, Repr

/-- A game/session record.  The anonymous path always builds both slots;
the named path builds one slot at creation and fills the other on join,
so slots are optional (absent = the JavaScript field is undefined). -/
structure Game where
  student : Option Participant
  mentor : Option Participant
  boardState : EnginePos
  pastStates : List EnginePos
deriving DecidableEq, Repr

/-- The two declared roles of the external interface. -/
inductive Role
  | student
  | mentor
deriving DecidableEq, Repr

/-- The role string as sent on the wire. -/
def roleName : Role → String
  | .student => "student"
  | .mentor => "mentor"

/-- Whole-server state: ongoingGames (anonymous store), sessions (named
store, keyed association list in insertion order), and the set of live
socket ids (io.sockets.sockets). -/
structure ServerState where
  ongoingGames : List Game
  sessions : List (String × Game)
  connected : List String
deriving DecidableEq, Repr

/-- Target of an emission: a broadcast to every connected socket
(io.emit) or an emission towards one socket id. -/
inductive EmitTarget
  | all
  | toSock (id : String)
deriving DecidableEq, Repr

/-- Outbound payloads, one constructor per JSON shape the server sends. -/
inductive Payload
  | board (pos : EnginePos) (color : Option String)
  | errorMsg (msg : String)
  | coords (fromSq toSq : String)
  | square (toSq : String)
  | emptyObj
  | xy (x y : Int)
  | pieceOf (p : String)
  | nothing
deriving DecidableEq, Repr

/-- One emission: target, event name, payload. -/
structure Emit where
  target : EmitTarget
  event : String
  payload : Payload
deriving DecidableEq, Repr

/-- Result of one handler run: the store state afterwards, the events
emitted (in order), and the error a thrown exception would carry. -/
structure HRes where
  state : ServerState
  emits : List Emit
  error : Option String
deriving DecidableEq, Repr

/-- safeEmit: emit to a socket id only if it is truthy and names a live
connection; otherwise a silent no-op. -/
def safeEmit (connected : List String) (socketId : String) (event : String)
    (payload : Payload) : List Emit :=
  if socketId ≠ "" ∧ socketId ∈ connected then [⟨.toSock socketId, event, payload⟩] else []

/-- `slot?.id` as handed to safeEmit: undefined collapses with "". -/
def optId (p : Option Participant) : String :=
  (p.map Participant.id).getD ""

/-- `slot?.id === socketId`: false when the slot is absent. -/
def slotMatches (p : Option Participant) (sid : String) : Bool :=
  match p with
  | none => false
  | some q => q.id == sid

/-- Locator of a game inside one of the two stores. -/
inductive GameLoc
  | anon (i : Nat)
  | named (sid : String)
deriving DecidableEq, Repr

/-- Scan of ongoingGames by bound socket id (first match wins). -/
def findAnonIdx (games : List Game) (socketId : String) (i : Nat) : Option Nat :=
  match games with
  | [] => none
  | g :: rest =>
    if slotMatches g.student socketId || slotMatches g.mentor socketId then some i
    else findAnonIdx rest socketId (i + 1)

/-- Lookup in the named-session registry (keys are unique: createSession
refuses an existing id, and sessions are never removed). -/
def lookupSession (sessions : List (String × Game)) (sid : String) : Option Game :=
  match sessions with
  | [] => none
  | (k, g) :: rest => if k == sid then some g else lookupSession rest sid

/-- Scan of the named store by bound socket id (insertion order). -/
def findNamedId (sessions : List (String × Game)) (socketId : String) : Option String :=
  match sessions with
  | [] => none
  | (k, g) :: rest =>
    if slotMatches g.student socketId || slotMatches g.mentor socketId then some k
    else findNamedId rest socketId

/-- findCurrentGameBySocket: ongoingGames first, then the named store. -/
def findCurrentGameBySocket (st : ServerState) (socketId : String) : Option GameLoc :=
  match findAnonIdx st.ongoingGames socketId 0 with
  | some i => some (.anon i)
  | none => (findNamedId st.sessions socketId).map GameLoc.named

/-- Read the game a locator points at. -/
def getGame (st : ServerState) : GameLoc → Option Game
  | .anon i => st.ongoingGames[i]?
  | .named sid => lookupSession st.sessions sid

/-- Replace the value bound to an existing key of the registry. -/
def setAssoc (sessions : List (String × Game)) (sid : String) (g : Game) :
    List (String × Game) :=
  match sessions with
  | [] => []
  | (k, g0) :: rest =>
    if k == sid then (k, g) :: rest else (k, g0) :: setAssoc rest sid g

/-- Write back the game a locator points at. -/
def setGame (st : ServerState) : GameLoc → Game → ServerState
  | .anon i, g => { st with ongoingGames := st.ongoingGames.set i g }
  | .named sid, g => { st with sessions := setAssoc st.sessions sid g }

/-- Read a slot by role. -/
def getSlot (g : Game) : Role → Option Participant
  | .student => g.student
  | .mentor => g.mentor

/-- Overwrite a slot by role. -/
def setSlot (g : Game) (r : Role) (p : Participant) : Game :=
  match r with
  | .student => { g with student := some p }
  | .mentor => { g with mentor := some p }

/-- Named-flow color rule: mentor is white, student is black. -/
def roleColorNamed : Role → String
  | .mentor => "white"
  | .student => "black"

/-- The TypeError raised by reading a property of an undefined slot. -/
def undefinedSlotError : String := "TypeError: cannot read property of undefined slot"

/-- The newgame matching loop over ongoingGames: a game matches when its
student username equals the requested student, or (short-circuit) its
mentor username equals the requested mentor.  Reading the username of an
absent slot throws. -/
def findMatchE (games : List Game) (studentName mentorName : String) (i : Nat) :
    Except String (Option (Nat × Game)) :=
  match games with
  | [] => .ok none
  | g :: rest =>
    match g.student with
    | none => .error undefinedSlotError
    | some ps =>
      if ps.username == studentName then .ok (some (i, g))
      else
        match g.mentor with
        | none => .error undefinedSlotError
        | some pm =>
          if pm.username == mentorName then .ok (some (i, g))
          else findMatchE rest studentName mentorName (i + 1)

/-- The colors array chosen by the newgame create path from the creator's
role: component one is the student slot's color, component two the
mentor slot's. -/
def anonColors : Role → String × String
  | .student => ("black", "white")
  | .mentor => ("white", "black")

/-- The game record the newgame create path pushes: both slots present,
the creator's socket bound to the creator's slot and "" in the other,
slot colors from the creator's role. -/
def newAnonGame (studentName mentorName : String) (role : Role) (sender : String) : Game :=
  { student := some ⟨studentName,
      (match role with | .student => sender | .mentor => ""), (anonColors role).1⟩
    mentor := some ⟨mentorName,
      (match role with | .student => "" | .mentor => sender), (anonColors role).2⟩
    boardState := chessNew
    pastStates := [] }

/-- The color the newgame create path reports to the creator: the
creator's own slot's color. -/
def anonCreatorColor (role : Role) : String :=
  match role with
  | .student => (anonColors role).1
  | .mentor => (anonColors role).2

/-- The newgame handler.  Create path: push the new game and io.emit the
board state with the creator's color to every connected socket.
Existing path: rebind the requester's socket into the slot named by the
role and send the board state with that slot's stored color to the
requester only. -/
def newgameHandler (sender : String) (st : ServerState)
    (studentName mentorName : String) (role : Role) : HRes :=
  match findMatchE st.ongoingGames studentName mentorName 0 with
  | .error e => ⟨st, [], some e⟩
  | .ok none =>
    ⟨{ st with ongoingGames := st.ongoingGames ++ [newAnonGame studentName mentorName role sender] },
      [⟨.all, "boardstate", .board chessNew (some (anonCreatorColor role))⟩], none⟩
  | .ok (some (i, g)) =>
    match role with
    | .student =>
      match g.student with
      | none => ⟨st, [], some undefinedSlotError⟩
      | some ps =>
        let g' := { g with student := some { ps with id := sender } }
        ⟨{ st with ongoingGames := st.ongoingGames.set i g' },
          [⟨.toSock sender, "boardstate", .board g.boardState (some ps.color)⟩], none⟩
    | .mentor =>
      match g.mentor with
      | none => ⟨st, [], some undefinedSlotError⟩
      | some pm =>
        let g' := { g with mentor := some { pm with id := sender } }
        ⟨{ st with ongoingGames := st.ongoingGames.set i g' },
          [⟨.toSock sender, "boardstate", .board g.boardState (some pm.color)⟩], none⟩

/-- The one-slot session record createSession registers: the creator's
slot bound to the requester with the named-flow color, the counterpart
slot absent. -/
def newNamedGame (username : String) (role : Role) (sender : String) : Game :=
  setSlot ⟨none, none, chessNew, []⟩ role ⟨username, sender, roleColorNamed role⟩

/-- createSession: refuse an already-registered id with an error to the
requester; otherwise register a one-slot session (mentor white, student
black) bound to the requester and acknowledge with sessionCreated. -/
def createSessionHandler (sender : String) (st : ServerState)
    (sid username : String) (role : Role) : HRes :=
  match lookupSession st.sessions sid with
  | some _ =>
    ⟨st, [⟨.toSock sender, "error",
      .errorMsg ("Session \"" ++ sid ++ "\" already exists.")⟩], none⟩
  | none =>
    ⟨{ st with sessions := st.sessions ++ [(sid, newNamedGame username role sender)] },
      [⟨.toSock sender, "sessionCreated", .board chessNew (some (roleColorNamed role))⟩], none⟩

/-- joinSession: unknown id gives a not-found error; an occupied slot
gives a role-taken error; otherwise bind the slot (mentor white, student
black), acknowledge with sessionJoined, and once both slots are occupied
safeEmit the board state to both slots with their own colors. -/
def joinSessionHandler (sender : String) (st : ServerState)
    (sid username : String) (role : Role) : HRes :=
  match lookupSession st.sessions sid with
  | none =>
    ⟨st, [⟨.toSock sender, "error",
      .errorMsg ("Session \"" ++ sid ++ "\" not found.")⟩], none⟩
  | some session =>
    match getSlot session role with
    | some _ =>
      ⟨st, [⟨.toSock sender, "error",
        .errorMsg ("Role \"" ++ roleName role ++ "\" is already taken.")⟩], none⟩
    | none =>
      let color := roleColorNamed role
      let session' := setSlot session role ⟨username, sender, color⟩
      let joined : Emit :=
        ⟨.toSock sender, "sessionJoined", .board session'.boardState (some color)⟩
      let bothEmits : List Emit :=
        match session'.mentor, session'.student with
        | some pm, some ps =>
          safeEmit st.connected pm.id "boardstate" (.board session'.boardState (some pm.color)) ++
          safeEmit st.connected ps.id "boardstate" (.board session'.boardState (some ps.color))
        | _, _ => []
      ⟨{ st with sessions := setAssoc st.sessions sid session' },
        joined :: bothEmits, none⟩

/-- The broadcast at the end of move/undo/setstate: safeEmit the current
serialized position (no color field) to mentor?.id then student?.id. -/
def broadcastBoth (connected : List String) (g : Game) : List Emit :=
  safeEmit connected (optId g.mentor) "boardstate" (.board g.boardState none) ++
  safeEmit connected (optId g.student) "boardstate" (.board g.boardState none)

/-- The move handler: resolve the sender's game; apply the move through
the engine, keeping the old position on rejection; broadcast the
resulting position to both slots.  No game resolved: silent return. -/
def moveHandler (legal : Legality) (sender : String) (st : ServerState)
    (m : MoveArg) : HRes :=
  match findCurrentGameBySocket st sender with
  | none => ⟨st, [], none⟩
  | some loc =>
    match getGame st loc with
    | none => ⟨st, [], none⟩
    | some g =>
      let g' : Game :=
        match engineMove legal g.boardState m with
        | some p => { g with boardState := p }
        | none => g
      ⟨setGame st loc g', broadcastBoth st.connected g', none⟩

/-- The undo handler: revert one ply through the engine (a no-op when
there is no prior state) and broadcast the resulting position to both. -/
def undoHandler (sender : String) (st : ServerState) : HRes :=
  match findCurrentGameBySocket st sender with
  | none => ⟨st, [], none⟩
  | some loc =>
    match getGame st loc with
    | none => ⟨st, [], none⟩
    | some g =>
      let g' := { g with boardState := engineUndo g.boardState }
      ⟨setGame st loc g', broadcastBoth st.connected g', none⟩

/-- The setstate handler: replace the position wholesale with an engine
instance built from the given text and broadcast it to both. -/
def setstateHandler (sender : String) (st : ServerState) (stateStr : String) : HRes :=
  match findCurrentGameBySocket st sender with
  | none => ⟨st, [], none⟩
  | some loc =>
    match getGame st loc with
    | none => ⟨st, [], none⟩
    | some g =>
      let g' := { g with boardState := chessFrom stateStr }
      ⟨setGame st loc g', broadcastBoth st.connected g', none⟩

/-- The endgame forEach loop with in-loop splice: fuel counts the visits
fixed at entry (the length at entry); games[k]? misses skip the callback
without advancing the outer index; a match on both usernames emits reset
to both slots and splices at the outer index. -/
def endgameLoop (connected : List String) (studentName mentorName : String) :
    Nat → Nat → Nat → List Game → List Emit → (List Game × List Emit × Option String)
  | 0, _, _, games, acc => (games, acc, none)
  | fuel + 1, k, idx, games, acc =>
    match games[k]? with
    | none => endgameLoop connected studentName mentorName fuel (k + 1) idx games acc
    | some g =>
      match g.student with
      | none => (games, acc, some undefinedSlotError)
      | some ps =>
        if ps.username == studentName then
          match g.mentor with
          | none => (games, acc, some undefinedSlotError)
          | some pm =>
            if pm.username == mentorName then
              let acc' := acc ++
                safeEmit connected (optId g.mentor) "reset" .nothing ++
                safeEmit connected (optId g.student) "reset" .nothing
              endgameLoop connected studentName mentorName fuel (k + 1) (idx + 1)
                (games.eraseIdx idx) acc'
            else
              endgameLoop connected studentName mentorName fuel (k + 1) (idx + 1) games acc
          else
            endgameLoop connected studentName mentorName fuel (k + 1) (idx + 1) games acc

/-- The endgame handler: iterate the loop over ongoingGames. -/
def endgameHandler (sender : String) (st : ServerState)
    (studentName mentorName : String) : HRes :=
  let r := endgameLoop st.connected studentName mentorName
    st.ongoingGames.length 0 0 st.ongoingGames []
  ⟨{ st with ongoingGames := r.1 }, r.2.1, r.2.2⟩

/-- The lastmove handler: resolve the sender's game and safeEmit the
coordinates to mentor?.id and student?.id, with no sender guard. -/
def lastmoveHandler (sender : String) (st : ServerState)
    (fromSq toSq : String) : HRes :=
  match findCurrentGameBySocket st sender with
  | none => ⟨st, [], none⟩
  | some loc =>
    match getGame st loc with
    | none => ⟨st, [], none⟩
    | some g =>
      ⟨st,
        safeEmit st.connected (optId g.mentor) "lastmove" (.coords fromSq toSq) ++
        safeEmit st.connected (optId g.student) "lastmove" (.coords fromSq toSq), none⟩

/-- The shared body of the six guarded relays: read mentor.id (throwing
on an absent slot); if it differs from the sender, safeEmit to the
mentor; otherwise read student.id (throwing on an absent slot) and, if
it differs from the sender, safeEmit to the student; otherwise log only. -/
def relayToOther (connected : List String) (sender : String) (g : Game)
    (event : String) (payload : Payload) : List Emit × Option String :=
  match g.mentor with
  | none => ([], some undefinedSlotError)
  | some pm =>
    if pm.id ≠ sender then
      (safeEmit connected (optId g.mentor) event payload, none)
    else
      match g.student with
      | none => ([], some undefinedSlotError)
      | some ps =>
        if ps.id ≠ sender then
          (safeEmit connected (optId g.student) event payload, none)
        else ([], none)

/-- A guarded relay handler: resolve the sender's game, then forward the
event through the counterpart guard; session state is never written. -/
def guardedRelayHandler (sender : String) (st : ServerState)
    (event : String) (payload : Payload) : HRes :=
  match findCurrentGameBySocket st sender with
  | none => ⟨st, [], none⟩
  | some loc =>
    match getGame st loc with
    | none => ⟨st, [], none⟩
    | some g =>
      let r := relayToOther st.connected sender g event payload
      ⟨st, r.1, r.2⟩

/-- The inbound event catalog. -/
inductive Event
  | newgame (studentName mentorName : String) (role : Role)
  | createSession (sid username : String) (role : Role)
  | joinSession (sid username : String) (role : Role)
  | move (m : MoveArg)
  | endgame (studentName mentorName : String)
  | undo
  | setstate (stateStr : String)
  | lastmove (fromSq toSq : String)
  | addgrey (toSq : String)
  | removegrey
  | mousexy (x y : Int)
  | piecedrop
  | piecedrag (piece : String)
  | highlight (fromSq toSq : String)
deriving DecidableEq, Repr

/-- Dispatch of one inbound event from one sender socket. -/
def handleEvent (legal : Legality) (sender : String) (st : ServerState) :
    Event → HRes
  | .newgame s m r => newgameHandler sender st s m r
  | .createSession sid u r => createSessionHandler sender st sid u r
  | .joinSession sid u r => joinSessionHandler sender st sid u r
  | .move m => moveHandler legal sender st m
  | .endgame s m => endgameHandler sender st s m
  | .undo => undoHandler sender st
  | .setstate s => setstateHandler sender st s
  | .lastmove f t => lastmoveHandler sender st f t
  | .addgrey t => guardedRelayHandler sender st "addgrey" (.square t)
  | .removegrey => guardedRelayHandler sender st "removegrey" .emptyObj
  | .mousexy x y => guardedRelayHandler sender st "mousexy" (.xy x y)
  | .piecedrop => guardedRelayHandler sender st "piecedrop" .emptyObj
  | .piecedrag p => guardedRelayHandler sender st "piecedrag" (.pieceOf p)
  | .highlight f t => guardedRelayHandler sender st "highlight" (.coords f t)

/-- Server start state: both stores empty, a given set of live sockets. -/
def startState (conn : List String) : ServerState := ⟨[], [], conn⟩

/-- Run a sequence of (sender, event) dispatches. -/
def runTrace (legal : Legality) (st : ServerState) :
    List (String × Event) → ServerState
  | [] => st
  | (sender, e) :: rest =>
    runTrace legal (handleEvent legal sender st e).state rest

/-! Claim-facing predicates. -/

/-- The slot's bound connection, when truthy and live, is among the
recipients of the given event and payload. -/
def deliversTo (emits : List Emit) (conn : List String) (slot : Option Participant)
    (event : String) (payload : Payload) : Prop :=
  ∀ p, slot = some p → p.id ≠ "" → p.id ∈ conn →
    Emit.mk (.toSock p.id) event payload ∈ emits

/-- Every emission in the list carries the given event and payload. -/
def allEmitsAre (emits : List Emit) (event : String) (payload : Payload) : Prop :=
  ∀ em ∈ emits, em.event = event ∧ em.payload = payload

/-- The six auxiliary relays that route through the counterpart guard
(every auxiliary relay except lastmove). -/
def isGuardedRelay : Event → Bool
  | .addgrey _ => true
  | .removegrey => true
  | .mousexy _ _ => true
  | .piecedrop => true
  | .piecedrag _ => true
  | .highlight _ _ => true
  | _ => false

/-- The colors of the two slots of a game (student first). -/
def colorsOf (g : Game) : Option String × Option String :=
  (g.student.map Participant.color, g.mentor.map Participant.color)

/-- A color string of the complementary pair. -/
def whiteOrBlack (c : String) : Prop := c = "white" ∨ c = "black"

/-- Complementarity of a game's occupied slots: each occupied slot holds
white or black, and when both slots are occupied their colors differ. -/
def ColorInv (g : Game) : Prop :=
  (∀ p, g.student = some p → whiteOrBlack p.color) ∧
  (∀ p, g.mentor = some p → whiteOrBlack p.color) ∧
  (∀ ps pm, g.student = some ps → g.mentor = some pm → ps.color ≠ pm.color)

/-- The named-flow color discipline: an occupied mentor slot is white and
an occupied student slot is black. -/
def NamedColorInv (g : Game) : Prop :=
  (∀ p, g.mentor = some p → p.color = "white") ∧
  (∀ p, g.student = some p → p.color = "black")

/-- Whole-state color invariant: every anonymous game is complementary
and every registered session follows the named color discipline. -/
def StateColorInv (st : ServerState) : Prop :=
  (∀ g ∈ st.ongoingGames, ColorInv g) ∧
  (∀ sid g, lookupSession st.sessions sid = some g → NamedColorInv g)

/-- One dispatch never changes the color of an already-assigned slot:
anonymous games keep their color pair index-by-index (or the store only
shrinks, on endgame), and every registered session keeps each occupied
slot, participant record included. -/
def ColorsStableStep (legal : Legality) (sender : String) (st : ServerState)
    (e : Event) : Prop :=
  ((∀ (i : Nat) (g g' : Game), st.ongoingGames[i]? = some g →
      (handleEvent legal sender st e).state.ongoingGames[i]? = some g' →
      colorsOf g' = colorsOf g) ∨
    List.Sublist (handleEvent legal sender st e).state.ongoingGames st.ongoingGames) ∧
  (∀ sid g r p, lookupSession st.sessions sid = some g → getSlot g r = some p →
    ∃ g', lookupSession (handleEvent legal sender st e).state.sessions sid = some g' ∧
      getSlot g' r = some p)

/-- Whole-state history-field invariant: the pastStates field of every
game in either store is the empty list. -/
def PastStatesInv (st : ServerState) : Prop :=
  (∀ g ∈ st.ongoingGames, g.pastStates = []) ∧
  (∀ sid g, lookupSession st.sessions sid = some g → g.pastStates = [])

/-! Concrete fixtures used by witnesses and counterexamples. -/

/-- An engine oracle that rejects every move. -/
def legalNone : Legality := fun _ _ _ => false

/-- An engine oracle that accepts every move. -/
def legalAll : Legality := fun _ _ _ => true

/-- An anonymous game with both slots bound: Alice (black, socket s1)
against Bob (white, socket m1). -/
def demoGame : Game :=
  { student := some ⟨"Alice", "s1", "black"⟩
    mentor := some ⟨"Bob", "m1", "white"⟩
    boardState := chessNew
    pastStates := [] }

/-- A server with the demo game and both sockets live. -/
def demoState : ServerState := ⟨[demoGame], [], ["s1", "m1"]⟩

/-- A named session "abc" in which only the creating mentor is bound. -/
def soloSession : Game :=
  { student := none
    mentor := some ⟨"Bob", "m1", "white"⟩
    boardState := chessNew
    pastStates := [] }

/-- A server with only the solo session, sockets m1 and s2 live. -/
def soloState : ServerState := ⟨[], [("abc", soloSession)], ["m1", "s2"]⟩

/-! Support lemmas about the registry and the stores. -/

theorem set_self_of_getElem? {α : Type} {l : List α} {i : Nat} {a : α}
    (h : l[i]? = some a) : l.set i a = l := by
  induction l generalizing i with
  | nil => simp at h
  | cons x xs ih =>
    cases i with
    | zero => simp at h; simp [h]
    | succ n => simp at h ⊢; exact ih h

theorem lookupSession_append_one (l : List (String × Game)) (s : String) (g : Game)
    (k : String) :
    lookupSession (l ++ [(s, g)]) k =
      match lookupSession l k with
      | some x => some x
      | none => if s == k then some g else none := by
  induction l with
  | nil => rfl
  | cons kv rest ih =>
    obtain ⟨k0, g0⟩ := kv
    by_cases hk : (k0 == k) = true
    · simp only [List.cons_append, lookupSession, if_pos hk]
    · simp only [List.cons_append, lookupSession, if_neg hk]
      exact ih

theorem lookupSession_setAssoc (l : List (String × Game)) (sid : String) (g : Game)
    (k : String) :
    lookupSession (setAssoc l sid g) k =
      if k == sid then (lookupSession l sid).map (fun _ => g)
      else lookupSession l k := by
  induction l with
  | nil =>
    by_cases hk : (k == sid) = true
    · simp [setAssoc, lookupSession, hk]
    · simp [setAssoc, lookupSession, hk]
  | cons kv rest ih =>
    obtain ⟨k0, g0⟩ := kv
    by_cases h0 : k0 = sid
    · subst h0
      by_cases hk : k = k0
      · subst hk
        simp [setAssoc, lookupSession]
      · simp [setAssoc, lookupSession, hk, Ne.symm hk]
    · by_cases hk : k0 = k
      · subst hk
        have hks : ¬k0 = sid := h0
        simp [setAssoc, lookupSession, h0, hks]
      · simp only [setAssoc, beq_iff_eq, if_neg h0, lookupSession, if_neg hk]
        rw [ih]
        by_cases hksid : k = sid
        · simp [hksid, lookupSession, h0]
        · simp [hksid, lookupSession, hk]

theorem setAssoc_self_of_lookup {l : List (String × Game)} {sid : String} {g : Game}
    (h : lookupSession l sid = some g) : setAssoc l sid g = l := by
  induction l with
  | nil => simp [lookupSession] at h
  | cons kv rest ih =>
    obtain ⟨k0, g0⟩ := kv
    by_cases h0 : k0 = sid
    · subst h0
      have hg : g0 = g := by simpa [lookupSession] using h
      subst hg
      simp [setAssoc]
    · simp only [lookupSession, beq_iff_eq, if_neg h0] at h
      simp [setAssoc, h0, ih h]

theorem getGame_setGame_self {st : ServerState} {loc : GameLoc} {g0 g : Game}
    (h : getGame st loc = some g0) :
    getGame (setGame st loc g) loc = some g := by
  cases loc with
  | anon i =>
    simp only [getGame, setGame] at h ⊢
    have hi : i < st.ongoingGames.length := by
      by_contra hlt
      rw [List.getElem?_eq_none (by omega)] at h
      exact Option.noConfusion h
    exact List.getElem?_set_eq_of_lt g hi
  | named sid =>
    simp only [getGame, setGame] at h ⊢
    rw [lookupSession_setAssoc]
    simp [h]

theorem setGame_self {st : ServerState} {loc : GameLoc} {g : Game}
    (h : getGame st loc = some g) : setGame st loc g = st := by
  cases loc with
  | anon i =>
    simp only [getGame] at h
    simp [setGame, set_self_of_getElem? h]
  | named sid =>
    simp only [getGame] at h
    simp [setGame, setAssoc_self_of_lookup h]

theorem mem_of_getElem?_some {α : Type} {l : List α} {i : Nat} {a : α}
    (h : l[i]? = some a) : a ∈ l := by
  induction l generalizing i with
  | nil => simp at h
  | cons x xs ih =>
    cases i with
    | zero => simp at h; simp [h]
    | succ n =>
      simp only [List.getElem?_cons_succ] at h
      exact List.mem_cons_of_mem x (ih h)

theorem mem_of_getGame_anon {st : ServerState} {i : Nat} {g : Game}
    (h : getGame st (.anon i) = some g) : g ∈ st.ongoingGames := by
  simp only [getGame] at h
  exact mem_of_getElem?_some h

theorem findMatchE_sound {studentName mentorName : String} :
    ∀ (games : List Game) (j i : Nat) (g : Game),
      findMatchE games studentName mentorName j = .ok (some (i, g)) →
      ∃ k, k + j = i ∧ games[k]? = some g := by
  intro games
  induction games with
  | nil => intro j i g h; simp [findMatchE] at h
  | cons g0 rest ih =>
    intro j i g h
    rw [findMatchE] at h
    split at h
    · exact absurd h (by simp)
    · split at h
      · obtain ⟨h1, h2⟩ : j = i ∧ g0 = g := by
          cases h; exact ⟨rfl, rfl⟩
        exact ⟨0, by omega, by simp [h2]⟩
      · split at h
        · exact absurd h (by simp)
        · split at h
          · obtain ⟨h1, h2⟩ : j = i ∧ g0 = g := by
              cases h; exact ⟨rfl, rfl⟩
            exact ⟨0, by omega, by simp [h2]⟩
          · obtain ⟨k, hk, hg⟩ := ih (j + 1) i g h
            exact ⟨k + 1, by omega, by simpa using hg⟩

theorem endgameLoop_games_sublist (conn : List String) (sName mName : String) :
    ∀ (fuel k idx : Nat) (games : List Game) (acc : List Emit),
      List.Sublist (endgameLoop conn sName mName fuel k idx games acc).1 games := by
  intro fuel
  induction fuel with
  | zero => intro k idx games acc; simp [endgameLoop]
  | succ n ih =>
    intro k idx games acc
    rw [endgameLoop]
    split
    · exact ih (k + 1) idx games acc
    · split
      · exact List.Sublist.refl games
      · split
        · split
          · exact List.Sublist.refl games
          · split
            · exact ((ih (k + 1) (idx + 1) (games.eraseIdx idx) _).trans
                (List.eraseIdx_sublist games idx))
            · exact ih (k + 1) (idx + 1) games acc
        · exact ih (k + 1) (idx + 1) games acc

theorem mem_safeEmit_self (conn : List String) (sockId : String) (event : String)
    (payload : Payload) (hne : sockId ≠ "") (hin : sockId ∈ conn) :
    Emit.mk (.toSock sockId) event payload ∈ safeEmit conn sockId event payload := by
  simp [safeEmit, hne, hin]

theorem safeEmit_subset (conn : List String) (sockId : String) (event : String)
    (payload : Payload) :
    ∀ em ∈ safeEmit conn sockId event payload, em = Emit.mk (.toSock sockId) event payload := by
  intro em hm
  by_cases h : sockId ≠ "" ∧ sockId ∈ conn
  · simpa [safeEmit, h] using hm
  · simp [safeEmit, h] at hm

theorem broadcastBoth_delivers (conn : List String) (g : Game) :
    deliversTo (broadcastBoth conn g) conn g.mentor "boardstate" (.board g.boardState none) ∧
    deliversTo (broadcastBoth conn g) conn g.student "boardstate" (.board g.boardState none) ∧
    allEmitsAre (broadcastBoth conn g) "boardstate" (.board g.boardState none) := by
  refine ⟨?_, ?_, ?_⟩
  · intro p hp hne hin
    refine List.mem_append_left _ ?_
    rw [hp] at *
    simpa [optId] using mem_safeEmit_self conn p.id "boardstate" _ hne hin
  · intro p hp hne hin
    refine List.mem_append_right _ ?_
    rw [hp] at *
    simpa [optId] using mem_safeEmit_self conn p.id "boardstate" _ hne hin
  · intro em hm
    rcases List.mem_append.mp hm with h | h
    · have := safeEmit_subset conn (optId g.mentor) "boardstate" _ em h
      simp [this]
    · have := safeEmit_subset conn (optId g.student) "boardstate" _ em h
      simp [this]

theorem relayToOther_emits (conn : List String) (sender : String) (g : Game)
    (event : String) (payload : Payload) :
    (relayToOther conn sender g event payload).1.length ≤ 1 ∧
    ∀ em ∈ (relayToOther conn sender g event payload).1,
      ∃ p, (g.mentor = some p ∨ g.student = some p) ∧ p.id ≠ sender ∧
        em = Emit.mk (.toSock p.id) event payload := by
  unfold relayToOther
  split
  · simp
  · rename_i pm hmem
    split
    · rename_i hpm
      constructor
      · simp only [safeEmit]
        split <;> simp
      · intro em hm
        have he := safeEmit_subset conn (optId g.mentor) event payload em (by simpa using hm)
        exact ⟨pm, Or.inl hmem, hpm, by simp [he, optId, hmem]⟩
    · rename_i hpm
      split
      · simp
      · rename_i ps hsm
        split
        · rename_i hps
          constructor
          · simp only [safeEmit]
            split <;> simp
          · intro em hm
            have he := safeEmit_subset conn (optId g.student) event payload em (by simpa using hm)
            exact ⟨ps, Or.inr hsm, hps, by simp [he, optId, hsm]⟩
        · simp

theorem guardedRelay_spec (sender : String) (st : ServerState) (event : String)
    (payload : Payload) :
    (guardedRelayHandler sender st event payload).state = st ∧
    (guardedRelayHandler sender st event payload).emits.length ≤ 1 ∧
    ∀ em ∈ (guardedRelayHandler sender st event payload).emits,
      em.target ≠ .toSock sender ∧
      ∃ loc g p, findCurrentGameBySocket st sender = some loc ∧ getGame st loc = some g ∧
        (g.mentor = some p ∨ g.student = some p) ∧ p.id ≠ sender ∧
        em = Emit.mk (.toSock p.id) event payload := by
  cases hf : findCurrentGameBySocket st sender with
  | none =>
    simp only [guardedRelayHandler, hf]
    exact ⟨by trivial, by simp, by simp⟩
  | some loc =>
    cases hg : getGame st loc with
    | none =>
      simp only [guardedRelayHandler, hf, hg]
      exact ⟨by trivial, by simp, by simp⟩
    | some g =>
      simp only [guardedRelayHandler, hf, hg]
      obtain ⟨hlen, hdesc⟩ := relayToOther_emits st.connected sender g event payload
      refine ⟨by trivial, hlen, ?_⟩
      intro em hm
      obtain ⟨p, hslot, hpid, hem⟩ := hdesc em hm
      refine ⟨?_, loc, g, p, rfl, hg, hslot, hpid, hem⟩
      rw [hem]
      intro hcontra
      apply hpid
      exact (EmitTarget.toSock.inj (by simpa using hcontra))

/-! Claim theorems. -/

/-- C3: when the requested sessionId is already registered, createSession
emits a duplicate-session error to the requesting socket only and the
whole server state — in particular every field of the existing session —
is returned unchanged, with no new session registered and no exception. -/
theorem C3_createSession_duplicate (legal : Legality) (sender : String)
    (st : ServerState) (sid username : String) (role : Role) (g : Game)
    (h : lookupSession st.sessions sid = some g) :
    handleEvent legal sender st (.createSession sid username role) =
      ⟨st, [⟨.toSock sender, "error",
        .errorMsg ("Session \"" ++ sid ++ "\" already exists.")⟩], none⟩ := by
  simp [handleEvent, createSessionHandler, h]

/-- Witness for C3: a duplicate createSession against the registered
session "abc" changes nothing and reports the error to the requester. -/
theorem C3_createSession_duplicate_witness :
    handleEvent legalNone "s2" soloState (.createSession "abc" "Eve" .student) =
      ⟨soloState, [⟨.toSock "s2", "error",
        .errorMsg ("Session \"" ++ "abc" ++ "\" already exists.")⟩], none⟩ :=
  C3_createSession_duplicate legalNone "s2" soloState "abc" "Eve" .student
    soloSession rfl

/-- C7: the claim says a relay with no counterpart bound is a silent
no-op, but the code contradicts it at this input: in a named session
where only the creating mentor is bound, an addgrey from that mentor
reads the id of the absent student slot and raises a TypeError (emitting
nothing), and a lastmove in the same state is delivered back to the
sender's own connection rather than to nobody. -/
theorem C7_relay_no_counterpart_bug :
    handleEvent legalNone "m1" soloState (.addgrey "e4") =
      ⟨soloState, [], some undefinedSlotError⟩ ∧
    (handleEvent legalNone "m1" soloState (.lastmove "a1" "a2")).emits =
      [⟨.toSock "m1", "lastmove", .coords "a1" "a2"⟩] :=
  ⟨by decide, by decide⟩

/-- C1 counterexample: with both slots of the demo game bound and live,
a lastmove sent by the student s1 is delivered back to s1's own
connection, contradicting the claim that auxiliary relay events are
never delivered back to the sending participant. -/
theorem C1_lastmove_echo_counterexample :
    Emit.mk (.toSock "s1") "lastmove" (.coords "e2" "e4") ∈
      (handleEvent legalNone "s1" demoState (.lastmove "e2" "e4")).emits := by
  decide

/-- C1 amended: each of the six guarded relays (addgrey, removegrey,
mousexy, piecedrop, piecedrag, highlight) never mutates state, emits at
most one event, and only towards the connection of a slot whose bound id
differs from the sender's — never back to the sender.  lastmove, by
contrast, is emitted towards both slots' connections with no sender
guard: whenever the sender occupies a slot of the resolved game and its
connection is live, the lastmove event is delivered back to the sender. -/
theorem C1_relay_routing (legal : Legality) (sender : String) (st : ServerState)
    (e : Event) (he : isGuardedRelay e = true) :
    ((handleEvent legal sender st e).state = st ∧
      (handleEvent legal sender st e).emits.length ≤ 1 ∧
      ∀ em ∈ (handleEvent legal sender st e).emits,
        em.target ≠ .toSock sender ∧
        ∃ loc g p, findCurrentGameBySocket st sender = some loc ∧
          getGame st loc = some g ∧
          (g.mentor = some p ∨ g.student = some p) ∧ p.id ≠ sender ∧
          em.target = .toSock p.id) ∧
    (∀ fromSq toSq loc g, findCurrentGameBySocket st sender = some loc →
      getGame st loc = some g →
      (slotMatches g.student sender || slotMatches g.mentor sender) = true →
      sender ≠ "" → sender ∈ st.connected →
      Emit.mk (.toSock sender) "lastmove" (.coords fromSq toSq) ∈
        (handleEvent legal sender st (.lastmove fromSq toSq)).emits) := by
  constructor
  · have key : ∀ event payload,
        (guardedRelayHandler sender st event payload).state = st ∧
        (guardedRelayHandler sender st event payload).emits.length ≤ 1 ∧
        ∀ em ∈ (guardedRelayHandler sender st event payload).emits,
          em.target ≠ .toSock sender ∧
          ∃ loc g p, findCurrentGameBySocket st sender = some loc ∧
            getGame st loc = some g ∧
            (g.mentor = some p ∨ g.student = some p) ∧ p.id ≠ sender ∧
            em.target = .toSock p.id := by
      intro event payload
      obtain ⟨h1, h2, h3⟩ := guardedRelay_spec sender st event payload
      refine ⟨h1, h2, ?_⟩
      intro em hm
      obtain ⟨hne, loc, g, p, hf, hg, hslot, hpid, hem⟩ := h3 em hm
      exact ⟨hne, loc, g, p, hf, hg, hslot, hpid, by rw [hem]⟩
    cases e with
    | newgame s m r => simp [isGuardedRelay] at he
    | createSession a b c => simp [isGuardedRelay] at he
    | joinSession a b c => simp [isGuardedRelay] at he
    | move m => simp [isGuardedRelay] at he
    | endgame a b => simp [isGuardedRelay] at he
    | undo => simp [isGuardedRelay] at he
    | setstate s => simp [isGuardedRelay] at he
    | lastmove f t => simp [isGuardedRelay] at he
    | addgrey t => exact key "addgrey" (.square t)
    | removegrey => exact key "removegrey" .emptyObj
    | mousexy x y => exact key "mousexy" (.xy x y)
    | piecedrop => exact key "piecedrop" .emptyObj
    | piecedrag p => exact key "piecedrag" (.pieceOf p)
    | highlight f t => exact key "highlight" (.coords f t)
  · intro fromSq toSq loc g hf hg hmatch hne hin
    simp only [handleEvent, lastmoveHandler, hf, hg]
    rcases Bool.or_eq_true_iff.mp hmatch with hs | hm
    · refine List.mem_append_right _ ?_
      cases hgs : g.student with
      | none => rw [hgs] at hs; simp [slotMatches] at hs
      | some ps =>
        rw [hgs] at hs
        have : ps.id = sender := by simpa [slotMatches] using hs
        rw [← this] at hne hin ⊢
        simpa [optId, hgs] using
          mem_safeEmit_self st.connected ps.id "lastmove" (.coords fromSq toSq) hne hin
    · refine List.mem_append_left _ ?_
      cases hgm : g.mentor with
      | none => rw [hgm] at hm; simp [slotMatches] at hm
      | some pm =>
        rw [hgm] at hm
        have : pm.id = sender := by simpa [slotMatches] using hm
        rw [← this] at hne hin ⊢
        simpa [optId, hgm] using
          mem_safeEmit_self st.connected pm.id "lastmove" (.coords fromSq toSq) hne hin

/-- Witness for C1's amended theorem: instantiated for an addgrey from
the demo student (no echo, state unchanged) and checking the lastmove
echo hypothesis chain at the demo state. -/
theorem C1_relay_routing_witness :
    ((handleEvent legalNone "s1" demoState (.addgrey "e4")).state = demoState ∧
      (handleEvent legalNone "s1" demoState (.addgrey "e4")).emits.length ≤ 1 ∧
      ∀ em ∈ (handleEvent legalNone "s1" demoState (.addgrey "e4")).emits,
        em.target ≠ .toSock "s1" ∧
        ∃ loc g p, findCurrentGameBySocket demoState "s1" = some loc ∧
          getGame demoState loc = some g ∧
          (g.mentor = some p ∨ g.student = some p) ∧ p.id ≠ "s1" ∧
          em.target = .toSock p.id) ∧
    (∀ fromSq toSq loc g, findCurrentGameBySocket demoState "s1" = some loc →
      getGame demoState loc = some g →
      (slotMatches g.student "s1" || slotMatches g.mentor "s1") = true →
      "s1" ≠ "" → "s1" ∈ demoState.connected →
      Emit.mk (.toSock "s1") "lastmove" (.coords fromSq toSq) ∈
        (handleEvent legalNone "s1" demoState (.lastmove fromSq toSq)).emits) :=
  C1_relay_routing legalNone "s1" demoState (.addgrey "e4") rfl

/-- C2: handling a move request for the sender's session never raises;
when the engine rejects the candidate move the entire server state —
in particular the session's position — is unchanged and a boardstate
broadcast carrying the unchanged serialized position still goes towards
both bound connections (delivered to every bound live connection); when
the engine accepts, the same broadcast carries the new position, which
becomes the session's position. -/
theorem C2_move_rejected_unchanged (legal : Legality) (sender : String)
    (st : ServerState) (m : MoveArg) (loc : GameLoc) (g : Game)
    (hfind : findCurrentGameBySocket st sender = some loc)
    (hget : getGame st loc = some g) :
    (handleEvent legal sender st (.move m)).error = none ∧
    (engineMove legal g.boardState m = none →
      (handleEvent legal sender st (.move m)).state = st ∧
      deliversTo (handleEvent legal sender st (.move m)).emits st.connected
        g.mentor "boardstate" (.board g.boardState none) ∧
      deliversTo (handleEvent legal sender st (.move m)).emits st.connected
        g.student "boardstate" (.board g.boardState none) ∧
      allEmitsAre (handleEvent legal sender st (.move m)).emits
        "boardstate" (.board g.boardState none)) ∧
    (∀ p, engineMove legal g.boardState m = some p →
      getGame (handleEvent legal sender st (.move m)).state loc =
        some { g with boardState := p } ∧
      deliversTo (handleEvent legal sender st (.move m)).emits st.connected
        g.mentor "boardstate" (.board p none) ∧
      deliversTo (handleEvent legal sender st (.move m)).emits st.connected
        g.student "boardstate" (.board p none) ∧
      allEmitsAre (handleEvent legal sender st (.move m)).emits
        "boardstate" (.board p none)) := by
  simp only [handleEvent, moveHandler, hfind, hget]
  refine ⟨by cases engineMove legal g.boardState m <;> simp, ?_, ?_⟩
  · intro hrej
    simp only [hrej]
    obtain ⟨d1, d2, d3⟩ := broadcastBoth_delivers st.connected g
    exact ⟨by simp [setGame_self hget], d1, d2, d3⟩
  · intro p hacc
    simp only [hacc]
    obtain ⟨d1, d2, d3⟩ :=
      broadcastBoth_delivers st.connected { g with boardState := p }
    exact ⟨by simp [getGame_setGame_self hget], d1, d2, d3⟩

/-- Witness for C2: the demo game under the reject-all oracle (position
and whole state unchanged, boardstate still broadcast) and under the
accept-all oracle (new position broadcast). -/
theorem C2_move_rejected_unchanged_witness :
    ((handleEvent legalNone "s1" demoState (.move ⟨"e2", "e4"⟩)).error = none ∧
      (engineMove legalNone demoGame.boardState ⟨"e2", "e4"⟩ = none →
        (handleEvent legalNone "s1" demoState (.move ⟨"e2", "e4"⟩)).state = demoState ∧
        deliversTo (handleEvent legalNone "s1" demoState (.move ⟨"e2", "e4"⟩)).emits
          demoState.connected demoGame.mentor "boardstate" (.board demoGame.boardState none) ∧
        deliversTo (handleEvent legalNone "s1" demoState (.move ⟨"e2", "e4"⟩)).emits
          demoState.connected demoGame.student "boardstate" (.board demoGame.boardState none) ∧
        allEmitsAre (handleEvent legalNone "s1" demoState (.move ⟨"e2", "e4"⟩)).emits
          "boardstate" (.board demoGame.boardState none)) ∧
      (∀ p, engineMove legalNone demoGame.boardState ⟨"e2", "e4"⟩ = some p →
        getGame (handleEvent legalNone "s1" demoState (.move ⟨"e2", "e4"⟩)).state (.anon 0) =
          some { demoGame with boardState := p } ∧
        deliversTo (handleEvent legalNone "s1" demoState (.move ⟨"e2", "e4"⟩)).emits
          demoState.connected demoGame.mentor "boardstate" (.board p none) ∧
        deliversTo (handleEvent legalNone "s1" demoState (.move ⟨"e2", "e4"⟩)).emits
          demoState.connected demoGame.student "boardstate" (.board p none) ∧
        allEmitsAre (handleEvent legalNone "s1" demoState (.move ⟨"e2", "e4"⟩)).emits
          "boardstate" (.board p none))) ∧
    ((handleEvent legalAll "s1" demoState (.move ⟨"e2", "e4"⟩)).error = none ∧
      (engineMove legalAll demoGame.boardState ⟨"e2", "e4"⟩ = none →
        (handleEvent legalAll "s1" demoState (.move ⟨"e2", "e4"⟩)).state = demoState ∧
        deliversTo (handleEvent legalAll "s1" demoState (.move ⟨"e2", "e4"⟩)).emits
          demoState.connected demoGame.mentor "boardstate" (.board demoGame.boardState none) ∧
        deliversTo (handleEvent legalAll "s1" demoState (.move ⟨"e2", "e4"⟩)).emits
          demoState.connected demoGame.student "boardstate" (.board demoGame.boardState none) ∧
        allEmitsAre (handleEvent legalAll "s1" demoState (.move ⟨"e2", "e4"⟩)).emits
          "boardstate" (.board demoGame.boardState none)) ∧
      (∀ p, engineMove legalAll demoGame.boardState ⟨"e2", "e4"⟩ = some p →
        getGame (handleEvent legalAll "s1" demoState (.move ⟨"e2", "e4"⟩)).state (.anon 0) =
          some { demoGame with boardState := p } ∧
        deliversTo (handleEvent legalAll "s1" demoState (.move ⟨"e2", "e4"⟩)).emits
          demoState.connected demoGame.mentor "boardstate" (.board p none) ∧
        deliversTo (handleEvent legalAll "s1" demoState (.move ⟨"e2", "e4"⟩)).emits
          demoState.connected demoGame.student "boardstate" (.board p none) ∧
        allEmitsAre (handleEvent legalAll "s1" demoState (.move ⟨"e2", "e4"⟩)).emits
          "boardstate" (.board p none))) :=
  ⟨C2_move_rejected_unchanged legalNone "s1" demoState ⟨"e2", "e4"⟩ (.anon 0)
      demoGame rfl rfl,
    C2_move_rejected_unchanged legalAll "s1" demoState ⟨"e2", "e4"⟩ (.anon 0)
      demoGame rfl rfl⟩

/-- C8: handling an undo for the sender's session never raises; the
session's position becomes the engine's one-ply revert (which leaves
the position exactly as it was when the engine has no prior state, in
which case the whole server state is unchanged), and in every case a
boardstate broadcast carrying the resulting serialized position goes
towards both bound connections. -/
theorem C8_undo_broadcast (legal : Legality) (sender : String)
    (st : ServerState) (loc : GameLoc) (g : Game)
    (hfind : findCurrentGameBySocket st sender = some loc)
    (hget : getGame st loc = some g) :
    (handleEvent legal sender st .undo).error = none ∧
    getGame (handleEvent legal sender st .undo).state loc =
      some { g with boardState := engineUndo g.boardState } ∧
    (g.boardState.moves = [] →
      engineUndo g.boardState = g.boardState ∧
      (handleEvent legal sender st .undo).state = st) ∧
    deliversTo (handleEvent legal sender st .undo).emits st.connected
      g.mentor "boardstate" (.board (engineUndo g.boardState) none) ∧
    deliversTo (handleEvent legal sender st .undo).emits st.connected
      g.student "boardstate" (.board (engineUndo g.boardState) none) ∧
    allEmitsAre (handleEvent legal sender st .undo).emits
      "boardstate" (.board (engineUndo g.boardState) none) := by
  simp only [handleEvent, undoHandler, hfind, hget]
  obtain ⟨d1, d2, d3⟩ :=
    broadcastBoth_delivers st.connected { g with boardState := engineUndo g.boardState }
  refine ⟨by simp, by simp [getGame_setGame_self hget], ?_, d1, d2, d3⟩
  intro hnil
  have hsame : engineUndo g.boardState = g.boardState :=
    calc engineUndo g.boardState
        = ⟨g.boardState.base, g.boardState.moves⟩ := by simp [engineUndo, hnil]
      _ = g.boardState := rfl
  refine ⟨hsame, ?_⟩
  have : ({ g with boardState := engineUndo g.boardState } : Game) = g := by
    rw [hsame]
  simp only [this]
  exact setGame_self hget

/-- Witness for C8: undo on the demo game, whose engine stack is empty,
leaves the whole state unchanged and still broadcasts to both. -/
theorem C8_undo_broadcast_witness :
    (handleEvent legalNone "s1" demoState .undo).error = none ∧
    getGame (handleEvent legalNone "s1" demoState .undo).state (.anon 0) =
      some { demoGame with boardState := engineUndo demoGame.boardState } ∧
    (demoGame.boardState.moves = [] →
      engineUndo demoGame.boardState = demoGame.boardState ∧
      (handleEvent legalNone "s1" demoState .undo).state = demoState) ∧
    deliversTo (handleEvent legalNone "s1" demoState .undo).emits demoState.connected
      demoGame.mentor "boardstate" (.board (engineUndo demoGame.boardState) none) ∧
    deliversTo (handleEvent legalNone "s1" demoState .undo).emits demoState.connected
      demoGame.student "boardstate" (.board (engineUndo demoGame.boardState) none) ∧
    allEmitsAre (handleEvent legalNone "s1" demoState .undo).emits
      "boardstate" (.board (engineUndo demoGame.boardState) none) :=
  C8_undo_broadcast legalNone "s1" demoState (.anon 0) demoGame rfl rfl

/-- C6: when some ongoing anonymous game matches the newgame request (its
student username equals the requested student or its mentor username
equals the requested mentor, first match wins) and the slot named by the
requested role is present, no second session is created (same store
length, named store untouched): the matched game is updated in place by
rebinding the requester's socket into that slot, and the only emission
is a boardstate to the requester carrying the game's current serialized
position and the color stored in that slot since creation. -/
theorem C6_newgame_existing (legal : Legality) (sender : String) (st : ServerState)
    (sName mName : String) (role : Role) (i : Nat) (g : Game) (p : Participant)
    (hmatch : findMatchE st.ongoingGames sName mName 0 = .ok (some (i, g)))
    (hslot : getSlot g role = some p) :
    (handleEvent legal sender st (.newgame sName mName role)).error = none ∧
    (handleEvent legal sender st (.newgame sName mName role)).state.ongoingGames.length =
      st.ongoingGames.length ∧
    (handleEvent legal sender st (.newgame sName mName role)).state.sessions =
      st.sessions ∧
    (handleEvent legal sender st (.newgame sName mName role)).state.ongoingGames =
      st.ongoingGames.set i (setSlot g role { p with id := sender }) ∧
    (handleEvent legal sender st (.newgame sName mName role)).emits =
      [⟨.toSock sender, "boardstate", .board g.boardState (some p.color)⟩] := by
  cases role with
  | student =>
    simp only [getSlot] at hslot
    simp [handleEvent, newgameHandler, hmatch, hslot, setSlot]
  | mentor =>
    simp only [getSlot] at hslot
    simp [handleEvent, newgameHandler, hmatch, hslot, setSlot]

/-- Witness for C6: Bob's mentor rejoin of the student-created Alice/Bob
demo game from socket m2 rebinds the mentor slot and reports color white
to m2 only. -/
theorem C6_newgame_existing_witness :
    (handleEvent legalNone "m2" demoState (.newgame "Alice" "Bob" .mentor)).error = none ∧
    (handleEvent legalNone "m2" demoState
        (.newgame "Alice" "Bob" .mentor)).state.ongoingGames.length =
      demoState.ongoingGames.length ∧
    (handleEvent legalNone "m2" demoState
        (.newgame "Alice" "Bob" .mentor)).state.sessions = demoState.sessions ∧
    (handleEvent legalNone "m2" demoState
        (.newgame "Alice" "Bob" .mentor)).state.ongoingGames =
      demoState.ongoingGames.set 0
        (setSlot demoGame .mentor { (⟨"Bob", "m1", "white"⟩ : Participant) with id := "m2" }) ∧
    (handleEvent legalNone "m2" demoState (.newgame "Alice" "Bob" .mentor)).emits =
      [⟨.toSock "m2", "boardstate", .board demoGame.boardState (some "white")⟩] :=
  C6_newgame_existing legalNone "m2" demoState "Alice" "Bob" .mentor 0 demoGame
    ⟨"Bob", "m1", "white"⟩ rfl rfl

/-- C9: the newgame create path emits its boardstate (initial position
plus the creator's color) with the io.emit broadcast target — every
connected socket — rather than to the requester or the participants
only; the existing path instead emits only towards the requester. -/
theorem C9_newgame_broadcast_scope (legal : Legality) (sender : String)
    (st : ServerState) (sName mName : String) (role : Role) :
    (findMatchE st.ongoingGames sName mName 0 = .ok none →
      (handleEvent legal sender st (.newgame sName mName role)).emits =
        [⟨.all, "boardstate", .board chessNew (some (anonCreatorColor role))⟩]) ∧
    (∀ i g, findMatchE st.ongoingGames sName mName 0 = .ok (some (i, g)) →
      ∀ em ∈ (handleEvent legal sender st (.newgame sName mName role)).emits,
        em.target = .toSock sender) := by
  constructor
  · intro hnone
    simp [handleEvent, newgameHandler, hnone]
  · intro i g hm em hmem
    simp only [handleEvent, newgameHandler, hm] at hmem
    cases role with
    | student =>
      cases hs : g.student with
      | none => rw [hs] at hmem; simp at hmem
      | some ps =>
        rw [hs] at hmem
        simp at hmem
        simp [hmem]
    | mentor =>
      cases hs : g.mentor with
      | none => rw [hs] at hmem; simp at hmem
      | some pm =>
        rw [hs] at hmem
        simp at hmem
        simp [hmem]

/-- Witness for C9: creating the Alice/Bob game from an empty store emits
one io.emit broadcast, and rejoining the demo game emits to the
requester only. -/
theorem C9_newgame_broadcast_scope_witness :
    ((findMatchE (startState ["s1"]).ongoingGames "Alice" "Bob" 0 = .ok none →
      (handleEvent legalNone "s1" (startState ["s1"]) (.newgame "Alice" "Bob" .student)).emits =
        [⟨.all, "boardstate", .board chessNew (some (anonCreatorColor .student))⟩]) ∧
    (∀ i g, findMatchE (startState ["s1"]).ongoingGames "Alice" "Bob" 0 = .ok (some (i, g)) →
      ∀ em ∈ (handleEvent legalNone "s1" (startState ["s1"]) (.newgame "Alice" "Bob" .student)).emits,
        em.target = .toSock "s1")) ∧
    ((findMatchE demoState.ongoingGames "Alice" "Bob" 0 = .ok none →
      (handleEvent legalNone "m2" demoState (.newgame "Alice" "Bob" .mentor)).emits =
        [⟨.all, "boardstate", .board chessNew (some (anonCreatorColor .mentor))⟩]) ∧
    (∀ i g, findMatchE demoState.ongoingGames "Alice" "Bob" 0 = .ok (some (i, g)) →
      ∀ em ∈ (handleEvent legalNone "m2" demoState (.newgame "Alice" "Bob" .mentor)).emits,
        em.target = .toSock "m2")) :=
  ⟨C9_newgame_broadcast_scope legalNone "s1" (startState ["s1"]) "Alice" "Bob" .student,
    C9_newgame_broadcast_scope legalNone "m2" demoState "Alice" "Bob" .mentor⟩

/-- C4: joinSession on an unregistered sessionId emits a not-found error
to the requester and changes nothing; on a registered session whose
requested slot is occupied it emits a role-taken error to the requester
and changes nothing — both slots (usernames, connection ids, colors) and
the position included; otherwise it binds the slot (everything else
unchanged: the anonymous store, every other session, and the session's
position and other slot) and, once both slots are occupied, emits a full
boardstate towards both live bound connections. -/
theorem C4_joinSession_outcomes (legal : Legality) (sender : String)
    (st : ServerState) (sid username : String) (role : Role) :
    (lookupSession st.sessions sid = none →
      handleEvent legal sender st (.joinSession sid username role) =
        ⟨st, [⟨.toSock sender, "error",
          .errorMsg ("Session \"" ++ sid ++ "\" not found.")⟩], none⟩) ∧
    (∀ s p, lookupSession st.sessions sid = some s → getSlot s role = some p →
      handleEvent legal sender st (.joinSession sid username role) =
        ⟨st, [⟨.toSock sender, "error",
          .errorMsg ("Role \"" ++ roleName role ++ "\" is already taken.")⟩], none⟩) ∧
    (∀ s, lookupSession st.sessions sid = some s → getSlot s role = none →
      (handleEvent legal sender st (.joinSession sid username role)).error = none ∧
      (handleEvent legal sender st (.joinSession sid username role)).state.ongoingGames =
        st.ongoingGames ∧
      lookupSession
          (handleEvent legal sender st (.joinSession sid username role)).state.sessions sid =
        some (setSlot s role ⟨username, sender, roleColorNamed role⟩) ∧
      (∀ k, k ≠ sid →
        lookupSession
            (handleEvent legal sender st (.joinSession sid username role)).state.sessions k =
          lookupSession st.sessions k) ∧
      (∀ pm ps, (setSlot s role ⟨username, sender, roleColorNamed role⟩).mentor = some pm →
        (setSlot s role ⟨username, sender, roleColorNamed role⟩).student = some ps →
        pm.id ≠ "" → pm.id ∈ st.connected →
        Emit.mk (.toSock pm.id) "boardstate" (.board s.boardState (some pm.color)) ∈
          (handleEvent legal sender st (.joinSession sid username role)).emits) ∧
      (∀ pm ps, (setSlot s role ⟨username, sender, roleColorNamed role⟩).mentor = some pm →
        (setSlot s role ⟨username, sender, roleColorNamed role⟩).student = some ps →
        ps.id ≠ "" → ps.id ∈ st.connected →
        Emit.mk (.toSock ps.id) "boardstate" (.board s.boardState (some ps.color)) ∈
          (handleEvent legal sender st (.joinSession sid username role)).emits)) := by
  refine ⟨?_, ?_, ?_⟩
  · intro hnone
    simp [handleEvent, joinSessionHandler, hnone]
  · intro s p hs hp
    simp [handleEvent, joinSessionHandler, hs, hp]
  · intro s hs hp
    simp only [handleEvent, joinSessionHandler, hs, hp]
    refine ⟨by simp, by simp, ?_, ?_, ?_, ?_⟩
    · simp [lookupSession_setAssoc, hs]
    · intro k hk
      simp [lookupSession_setAssoc, fun h => hk (by simpa using h)]
    · intro pm ps hpm hps hne hin
      simp only [hpm, hps]
      refine List.mem_cons_of_mem _ ?_
      refine List.mem_append_left _ ?_
      have : (setSlot s role ⟨username, sender, roleColorNamed role⟩).boardState =
          s.boardState := by
        cases role <;> rfl
      rw [← this]
      exact mem_safeEmit_self st.connected pm.id "boardstate" _ hne hin
    · intro pm ps hpm hps hne hin
      simp only [hpm, hps]
      refine List.mem_cons_of_mem _ ?_
      refine List.mem_append_right _ ?_
      have : (setSlot s role ⟨username, sender, roleColorNamed role⟩).boardState =
          s.boardState := by
        cases role <;> rfl
      rw [← this]
      exact mem_safeEmit_self st.connected ps.id "boardstate" _ hne hin

/-- Witness for C4: against the solo session "abc", a join with an
unknown id errors, a mentor join errors with role-taken and changes
nothing, and Alice's student join binds the slot and broadcasts the
board to both live connections. -/
theorem C4_joinSession_outcomes_witness :
    ((lookupSession soloState.sessions "nope" = none →
      handleEvent legalNone "s2" soloState (.joinSession "nope" "Alice" .student) =
        ⟨soloState, [⟨.toSock "s2", "error",
          .errorMsg ("Session \"" ++ "nope" ++ "\" not found.")⟩], none⟩) ∧
    (∀ s p, lookupSession soloState.sessions "nope" = some s → getSlot s .student = some p →
      handleEvent legalNone "s2" soloState (.joinSession "nope" "Alice" .student) =
        ⟨soloState, [⟨.toSock "s2", "error",
          .errorMsg ("Role \"" ++ roleName .student ++ "\" is already taken.")⟩], none⟩) ∧
    (∀ s, lookupSession soloState.sessions "nope" = some s → getSlot s .student = none →
      (handleEvent legalNone "s2" soloState (.joinSession "nope" "Alice" .student)).error = none ∧
      (handleEvent legalNone "s2" soloState
          (.joinSession "nope" "Alice" .student)).state.ongoingGames = soloState.ongoingGames ∧
      lookupSession (handleEvent legalNone "s2" soloState
          (.joinSession "nope" "Alice" .student)).state.sessions "nope" =
        some (setSlot s .student ⟨"Alice", "s2", roleColorNamed .student⟩) ∧
      (∀ k, k ≠ "nope" →
        lookupSession (handleEvent legalNone "s2" soloState
            (.joinSession "nope" "Alice" .student)).state.sessions k =
          lookupSession soloState.sessions k) ∧
      (∀ pm ps, (setSlot s .student ⟨"Alice", "s2", roleColorNamed .student⟩).mentor = some pm →
        (setSlot s .student ⟨"Alice", "s2", roleColorNamed .student⟩).student = some ps →
        pm.id ≠ "" → pm.id ∈ soloState.connected →
        Emit.mk (.toSock pm.id) "boardstate" (.board s.boardState (some pm.color)) ∈
          (handleEvent legalNone "s2" soloState (.joinSession "nope" "Alice" .student)).emits) ∧
      (∀ pm ps, (setSlot s .student ⟨"Alice", "s2", roleColorNamed .student⟩).mentor = some pm →
        (setSlot s .student ⟨"Alice", "s2", roleColorNamed .student⟩).student = some ps →
        ps.id ≠ "" → ps.id ∈ soloState.connected →
        Emit.mk (.toSock ps.id) "boardstate" (.board s.boardState (some ps.color)) ∈
          (handleEvent legalNone "s2" soloState (.joinSession "nope" "Alice" .student)).emits))) ∧
    ((lookupSession soloState.sessions "abc" = none →
      handleEvent legalNone "s2" soloState (.joinSession "abc" "Eve" .mentor) =
        ⟨soloState, [⟨.toSock "s2", "error",
          .errorMsg ("Session \"" ++ "abc" ++ "\" not found.")⟩], none⟩) ∧
    (∀ s p, lookupSession soloState.sessions "abc" = some s → getSlot s .mentor = some p →
      handleEvent legalNone "s2" soloState (.joinSession "abc" "Eve" .mentor) =
        ⟨soloState, [⟨.toSock "s2", "error",
          .errorMsg ("Role \"" ++ roleName .mentor ++ "\" is already taken.")⟩], none⟩) ∧
    (∀ s, lookupSession soloState.sessions "abc" = some s → getSlot s .mentor = none →
      (handleEvent legalNone "s2" soloState (.joinSession "abc" "Eve" .mentor)).error = none ∧
      (handleEvent legalNone "s2" soloState
          (.joinSession "abc" "Eve" .mentor)).state.ongoingGames = soloState.ongoingGames ∧
      lookupSession (handleEvent legalNone "s2" soloState
          (.joinSession "abc" "Eve" .mentor)).state.sessions "abc" =
        some (setSlot s .mentor ⟨"Eve", "s2", roleColorNamed .mentor⟩) ∧
      (∀ k, k ≠ "abc" →
        lookupSession (handleEvent legalNone "s2" soloState
            (.joinSession "abc" "Eve" .mentor)).state.sessions k =
          lookupSession soloState.sessions k) ∧
      (∀ pm ps, (setSlot s .mentor ⟨"Eve", "s2", roleColorNamed .mentor⟩).mentor = some pm →
        (setSlot s .mentor ⟨"Eve", "s2", roleColorNamed .mentor⟩).student = some ps →
        pm.id ≠ "" → pm.id ∈ soloState.connected →
        Emit.mk (.toSock pm.id) "boardstate" (.board s.boardState (some pm.color)) ∈
          (handleEvent legalNone "s2" soloState (.joinSession "abc" "Eve" .mentor)).emits) ∧
      (∀ pm ps, (setSlot s .mentor ⟨"Eve", "s2", roleColorNamed .mentor⟩).mentor = some pm →
        (setSlot s .mentor ⟨"Eve", "s2", roleColorNamed .mentor⟩).student = some ps →
        ps.id ≠ "" → ps.id ∈ soloState.connected →
        Emit.mk (.toSock ps.id) "boardstate" (.board s.boardState (some ps.color)) ∈
          (handleEvent legalNone "s2" soloState (.joinSession "abc" "Eve" .mentor)).emits))) ∧
    ((lookupSession soloState.sessions "abc" = none →
      handleEvent legalNone "s2" soloState (.joinSession "abc" "Alice" .student) =
        ⟨soloState, [⟨.toSock "s2", "error",
          .errorMsg ("Session \"" ++ "abc" ++ "\" not found.")⟩], none⟩) ∧
    (∀ s p, lookupSession soloState.sessions "abc" = some s → getSlot s .student = some p →
      handleEvent legalNone "s2" soloState (.joinSession "abc" "Alice" .student) =
        ⟨soloState, [⟨.toSock "s2", "error",
          .errorMsg ("Role \"" ++ roleName .student ++ "\" is already taken.")⟩], none⟩) ∧
    (∀ s, lookupSession soloState.sessions "abc" = some s → getSlot s .student = none →
      (handleEvent legalNone "s2" soloState (.joinSession "abc" "Alice" .student)).error = none ∧
      (handleEvent legalNone "s2" soloState
          (.joinSession "abc" "Alice" .student)).state.ongoingGames = soloState.ongoingGames ∧
      lookupSession (handleEvent legalNone "s2" soloState
          (.joinSession "abc" "Alice" .student)).state.sessions "abc" =
        some (setSlot s .student ⟨"Alice", "s2", roleColorNamed .student⟩) ∧
      (∀ k, k ≠ "abc" →
        lookupSession (handleEvent legalNone "s2" soloState
            (.joinSession "abc" "Alice" .student)).state.sessions k =
          lookupSession soloState.sessions k) ∧
      (∀ pm ps, (setSlot s .student ⟨"Alice", "s2", roleColorNamed .student⟩).mentor = some pm →
        (setSlot s .student ⟨"Alice", "s2", roleColorNamed .student⟩).student = some ps →
        pm.id ≠ "" → pm.id ∈ soloState.connected →
        Emit.mk (.toSock pm.id) "boardstate" (.board s.boardState (some pm.color)) ∈
          (handleEvent legalNone "s2" soloState (.joinSession "abc" "Alice" .student)).emits) ∧
      (∀ pm ps, (setSlot s .student ⟨"Alice", "s2", roleColorNamed .student⟩).mentor = some pm →
        (setSlot s .student ⟨"Alice", "s2", roleColorNamed .student⟩).student = some ps →
        ps.id ≠ "" → ps.id ∈ soloState.connected →
        Emit.mk (.toSock ps.id) "boardstate" (.board s.boardState (some ps.color)) ∈
          (handleEvent legalNone "s2" soloState (.joinSession "abc" "Alice" .student)).emits))) :=
  ⟨C4_joinSession_outcomes legalNone "s2" soloState "nope" "Alice" .student,
    C4_joinSession_outcomes legalNone "s2" soloState "abc" "Eve" .mentor,
    C4_joinSession_outcomes legalNone "s2" soloState "abc" "Alice" .student⟩

/-! Trace-invariant machinery: a generic preservation lemma for a
per-game predicate P on the anonymous store and Q on the named store. -/

theorem lastmoveHandler_state (sender : String) (st : ServerState) (f t : String) :
    (lastmoveHandler sender st f t).state = st := by
  cases hf : findCurrentGameBySocket st sender with
  | none => simp [lastmoveHandler, hf]
  | some loc =>
    cases hg : getGame st loc with
    | none => simp [lastmoveHandler, hf, hg]
    | some g => simp [lastmoveHandler, hf, hg]

theorem statePred_setGame_board (P Q : Game → Prop)
    (hPboard : ∀ g b, P g → P { g with boardState := b })
    (hQboard : ∀ g b, Q g → Q { g with boardState := b })
    (st : ServerState) (loc : GameLoc) (g : Game) (b : EnginePos)
    (hget : getGame st loc = some g)
    (h1 : ∀ g0 ∈ st.ongoingGames, P g0)
    (h2 : ∀ sid g0, lookupSession st.sessions sid = some g0 → Q g0) :
    (∀ g0 ∈ (setGame st loc { g with boardState := b }).ongoingGames, P g0) ∧
    (∀ sid g0,
      lookupSession (setGame st loc { g with boardState := b }).sessions sid = some g0 →
      Q g0) := by
  cases loc with
  | anon i =>
    refine ⟨?_, by simpa [setGame] using h2⟩
    intro g0 hg0
    simp only [setGame] at hg0
    rcases List.mem_or_eq_of_mem_set hg0 with h | h
    · exact h1 g0 h
    · exact h ▸ hPboard g b (h1 g (mem_of_getGame_anon hget))
  | named sid0 =>
    refine ⟨by simpa [setGame] using h1, ?_⟩
    intro sid g0 hg0
    simp only [setGame] at hg0
    rw [lookupSession_setAssoc] at hg0
    by_cases hk : (sid == sid0) = true
    · rw [if_pos hk] at hg0
      simp only [getGame] at hget
      rw [hget] at hg0
      have hg0' : ({ g with boardState := b } : Game) = g0 := by simpa using hg0
      cases hg0'
      exact hQboard g b (h2 sid0 g hget)
    · rw [if_neg hk] at hg0
      exact h2 sid g0 hg0

theorem statePred_step (P Q : Game → Prop)
    (hPrebindS : ∀ g ps s, g.student = some ps → P g →
      P { g with student := some { ps with id := s } })
    (hPrebindM : ∀ g pm s, g.mentor = some pm → P g →
      P { g with mentor := some { pm with id := s } })
    (hPboard : ∀ g b, P g → P { g with boardState := b })
    (hPnew : ∀ sName mName role sender, P (newAnonGame sName mName role sender))
    (hQboard : ∀ g b, Q g → Q { g with boardState := b })
    (hQjoin : ∀ g role u s, Q g → Q (setSlot g role ⟨u, s, roleColorNamed role⟩))
    (hQnew : ∀ u role sender, Q (newNamedGame u role sender))
    (legal : Legality) (sender : String) (st : ServerState) (e : Event)
    (h1 : ∀ g ∈ st.ongoingGames, P g)
    (h2 : ∀ sid g, lookupSession st.sessions sid = some g → Q g) :
    (∀ g ∈ (handleEvent legal sender st e).state.ongoingGames, P g) ∧
    (∀ sid g, lookupSession (handleEvent legal sender st e).state.sessions sid = some g →
      Q g) := by
  cases e with
  | newgame sName mName role =>
    cases hm : findMatchE st.ongoingGames sName mName 0 with
    | error err => simp only [handleEvent, newgameHandler, hm]; exact ⟨h1, h2⟩
    | ok res =>
      cases res with
      | none =>
        simp only [handleEvent, newgameHandler, hm]
        refine ⟨?_, h2⟩
        intro g hg
        rcases List.mem_append.mp hg with h | h
        · exact h1 g h
        · rw [List.mem_singleton.mp h]
          exact hPnew sName mName role sender
      | some ig =>
        obtain ⟨i, g⟩ := ig
        have hginst : g ∈ st.ongoingGames := by
          obtain ⟨k, hk, hg⟩ := findMatchE_sound st.ongoingGames 0 i g hm
          exact mem_of_getElem?_some hg
        cases role with
        | student =>
          cases hgs : g.student with
          | none => simp only [handleEvent, newgameHandler, hm, hgs]; exact ⟨h1, h2⟩
          | some ps =>
            simp only [handleEvent, newgameHandler, hm, hgs]
            refine ⟨?_, h2⟩
            intro g0 hg0
            rcases List.mem_or_eq_of_mem_set hg0 with h | h
            · exact h1 g0 h
            · exact h ▸ hPrebindS g ps sender hgs (h1 g hginst)
        | mentor =>
          cases hgm : g.mentor with
          | none => simp only [handleEvent, newgameHandler, hm, hgm]; exact ⟨h1, h2⟩
          | some pm =>
            simp only [handleEvent, newgameHandler, hm, hgm]
            refine ⟨?_, h2⟩
            intro g0 hg0
            rcases List.mem_or_eq_of_mem_set hg0 with h | h
            · exact h1 g0 h
            · exact h ▸ hPrebindM g pm sender hgm (h1 g hginst)
  | createSession sid u role =>
    cases hl : lookupSession st.sessions sid with
    | some s => simp only [handleEvent, createSessionHandler, hl]; exact ⟨h1, h2⟩
    | none =>
      simp only [handleEvent, createSessionHandler, hl]
      refine ⟨h1, ?_⟩
      intro k g0 hg0
      rw [lookupSession_append_one] at hg0
      cases hlk : lookupSession st.sessions k with
      | some x => rw [hlk] at hg0; cases hg0; exact h2 k g0 hlk
      | none =>
        rw [hlk] at hg0
        by_cases hks : (sid == k) = true
        · rw [if_pos hks] at hg0
          cases hg0
          exact hQnew u role sender
        · rw [if_neg hks] at hg0
          exact Option.noConfusion hg0
  | joinSession sid u role =>
    cases hl : lookupSession st.sessions sid with
    | none => simp only [handleEvent, joinSessionHandler, hl]; exact ⟨h1, h2⟩
    | some s =>
      cases hslot : getSlot s role with
      | some p => simp only [handleEvent, joinSessionHandler, hl, hslot]; exact ⟨h1, h2⟩
      | none =>
        simp only [handleEvent, joinSessionHandler, hl, hslot]
        refine ⟨h1, ?_⟩
        intro k g0 hg0
        rw [lookupSession_setAssoc] at hg0
        by_cases hks : (k == sid) = true
        · rw [if_pos hks] at hg0
          rw [hl] at hg0
          have hg0' : setSlot s role ⟨u, sender, roleColorNamed role⟩ = g0 := by
            simpa using hg0
          cases hg0'
          exact hQjoin s role u sender (h2 sid s hl)
        · rw [if_neg hks] at hg0
          exact h2 k g0 hg0
  | move m =>
    cases hf : findCurrentGameBySocket st sender with
    | none => simp only [handleEvent, moveHandler, hf]; exact ⟨h1, h2⟩
    | some loc =>
      cases hg : getGame st loc with
      | none => simp only [handleEvent, moveHandler, hf, hg]; exact ⟨h1, h2⟩
      | some g =>
        simp only [handleEvent, moveHandler, hf, hg]
        cases hmv : engineMove legal g.boardState m with
        | none =>
          simpa using statePred_setGame_board P Q hPboard hQboard st loc g
            g.boardState hg h1 h2
        | some p =>
          simpa using statePred_setGame_board P Q hPboard hQboard st loc g p hg h1 h2
  | endgame sName mName =>
    simp only [handleEvent, endgameHandler]
    refine ⟨?_, h2⟩
    intro g hg
    exact h1 g ((endgameLoop_games_sublist st.connected sName mName
      st.ongoingGames.length 0 0 st.ongoingGames []).subset hg)
  | undo =>
    cases hf : findCurrentGameBySocket st sender with
    | none => simp only [handleEvent, undoHandler, hf]; exact ⟨h1, h2⟩
    | some loc =>
      cases hg : getGame st loc with
      | none => simp only [handleEvent, undoHandler, hf, hg]; exact ⟨h1, h2⟩
      | some g =>
        simp only [handleEvent, undoHandler, hf, hg]
        exact statePred_setGame_board P Q hPboard hQboard st loc g
          (engineUndo g.boardState) hg h1 h2
  | setstate s =>
    cases hf : findCurrentGameBySocket st sender with
    | none => simp only [handleEvent, setstateHandler, hf]; exact ⟨h1, h2⟩
    | some loc =>
      cases hg : getGame st loc with
      | none => simp only [handleEvent, setstateHandler, hf, hg]; exact ⟨h1, h2⟩
      | some g =>
        simp only [handleEvent, setstateHandler, hf, hg]
        exact statePred_setGame_board P Q hPboard hQboard st loc g (chessFrom s) hg h1 h2
  | lastmove f t =>
    rw [show (handleEvent legal sender st (.lastmove f t)).state =
      (lastmoveHandler sender st f t).state from rfl, lastmoveHandler_state]
    exact ⟨h1, h2⟩
  | addgrey t =>
    rw [show (handleEvent legal sender st (.addgrey t)).state =
      (guardedRelayHandler sender st "addgrey" (.square t)).state from rfl,
      (guardedRelay_spec sender st "addgrey" (.square t)).1]
    exact ⟨h1, h2⟩
  | removegrey =>
    rw [show (handleEvent legal sender st .removegrey).state =
      (guardedRelayHandler sender st "removegrey" .emptyObj).state from rfl,
      (guardedRelay_spec sender st "removegrey" .emptyObj).1]
    exact ⟨h1, h2⟩
  | mousexy x y =>
    rw [show (handleEvent legal sender st (.mousexy x y)).state =
      (guardedRelayHandler sender st "mousexy" (.xy x y)).state from rfl,
      (guardedRelay_spec sender st "mousexy" (.xy x y)).1]
    exact ⟨h1, h2⟩
  | piecedrop =>
    rw [show (handleEvent legal sender st .piecedrop).state =
      (guardedRelayHandler sender st "piecedrop" .emptyObj).state from rfl,
      (guardedRelay_spec sender st "piecedrop" .emptyObj).1]
    exact ⟨h1, h2⟩
  | piecedrag p =>
    rw [show (handleEvent legal sender st (.piecedrag p)).state =
      (guardedRelayHandler sender st "piecedrag" (.pieceOf p)).state from rfl,
      (guardedRelay_spec sender st "piecedrag" (.pieceOf p)).1]
    exact ⟨h1, h2⟩
  | highlight f t =>
    rw [show (handleEvent legal sender st (.highlight f t)).state =
      (guardedRelayHandler sender st "highlight" (.coords f t)).state from rfl,
      (guardedRelay_spec sender st "highlight" (.coords f t)).1]
    exact ⟨h1, h2⟩

theorem statePred_runTrace (P Q : Game → Prop)
    (hPrebindS : ∀ g ps s, g.student = some ps → P g →
      P { g with student := some { ps with id := s } })
    (hPrebindM : ∀ g pm s, g.mentor = some pm → P g →
      P { g with mentor := some { pm with id := s } })
    (hPboard : ∀ g b, P g → P { g with boardState := b })
    (hPnew : ∀ sName mName role sender, P (newAnonGame sName mName role sender))
    (hQboard : ∀ g b, Q g → Q { g with boardState := b })
    (hQjoin : ∀ g role u s, Q g → Q (setSlot g role ⟨u, s, roleColorNamed role⟩))
    (hQnew : ∀ u role sender, Q (newNamedGame u role sender))
    (legal : Legality) :
    ∀ (tr : List (String × Event)) (st : ServerState),
      (∀ g ∈ st.ongoingGames, P g) →
      (∀ sid g, lookupSession st.sessions sid = some g → Q g) →
      (∀ g ∈ (runTrace legal st tr).ongoingGames, P g) ∧
      (∀ sid g, lookupSession (runTrace legal st tr).sessions sid = some g → Q g) := by
  intro tr
  induction tr with
  | nil => intro st h1 h2; exact ⟨h1, h2⟩
  | cons pr rest ih =>
    intro st h1 h2
    obtain ⟨sender, e⟩ := pr
    obtain ⟨h1', h2'⟩ := statePred_step P Q hPrebindS hPrebindM hPboard hPnew
      hQboard hQjoin hQnew legal sender st e h1 h2
    exact ih _ h1' h2'

/-! Per-step color stability. -/

theorem pointwiseColors_of_eq {l : List Game} :
    ∀ (i : Nat) (g g' : Game), l[i]? = some g → l[i]? = some g' →
      colorsOf g' = colorsOf g := by
  intro i g g' h h'
  rw [h] at h'
  cases h'
  rfl

theorem pointwiseColors_set {l : List Game} {i : Nat} {gOld gNew : Game}
    (hold : l[i]? = some gOld) (hcol : colorsOf gNew = colorsOf gOld) :
    ∀ (j : Nat) (g g' : Game), l[j]? = some g → (l.set i gNew)[j]? = some g' →
      colorsOf g' = colorsOf g := by
  intro j g g' hg hg'
  by_cases hij : i = j
  · subst hij
    have hi : i < l.length := by
      by_contra hlt
      rw [List.getElem?_eq_none (by omega)] at hg
      exact Option.noConfusion hg
    rw [List.getElem?_set_eq_of_lt gNew hi] at hg'
    cases hg'
    rw [hold] at hg
    cases hg
    exact hcol
  · rw [List.getElem?_set_ne hij] at hg'
    exact pointwiseColors_of_eq j g g' hg hg'

theorem pointwiseColors_append {l : List Game} {x : Game} :
    ∀ (j : Nat) (g g' : Game), l[j]? = some g → (l ++ [x])[j]? = some g' →
      colorsOf g' = colorsOf g := by
  intro j g g' hg hg'
  have hj : j < l.length := by
    by_contra hlt
    rw [List.getElem?_eq_none (by omega)] at hg
    exact Option.noConfusion hg
  rw [List.getElem?_append, if_pos hj] at hg'
  exact pointwiseColors_of_eq j g g' hg hg'

theorem getSlot_board_update (g : Game) (b : EnginePos) (r : Role) :
    getSlot { g with boardState := b } r = getSlot g r := by
  cases r <;> rfl

theorem getSlot_setSlot_preserve {s : Game} {role : Role} {pNew : Participant}
    (hnone : getSlot s role = none) :
    ∀ (r : Role) (p : Participant), getSlot s r = some p →
      getSlot (setSlot s role pNew) r = some p := by
  intro r p hp
  cases r <;> cases role <;>
    simp only [getSlot, setSlot] at hnone hp ⊢ <;> simp_all

theorem namedSlots_setGame_board {st : ServerState} {loc : GameLoc} {g : Game}
    {b : EnginePos} (hget : getGame st loc = some g) :
    ∀ (sid : String) (g0 : Game) (r : Role) (p : Participant),
      lookupSession st.sessions sid = some g0 → getSlot g0 r = some p →
      ∃ g', lookupSession (setGame st loc { g with boardState := b }).sessions sid =
          some g' ∧ getSlot g' r = some p := by
  intro sid g0 r p hl hp
  cases loc with
  | anon i => exact ⟨g0, by simpa [setGame] using hl, hp⟩
  | named sid0 =>
    simp only [setGame]
    rw [lookupSession_setAssoc]
    by_cases hk : (sid == sid0) = true
    · rw [if_pos hk]
      have hss : sid = sid0 := by simpa using hk
      subst hss
      simp only [getGame] at hget
      rw [hl] at hget ⊢
      obtain rfl := Option.some.inj hget
      exact ⟨_, rfl, by rw [getSlot_board_update]; exact hp⟩
    · rw [if_neg hk]
      exact ⟨g0, hl, hp⟩

theorem colorsStableStep_all (legal : Legality) (sender : String) (st : ServerState)
    (e : Event) : ColorsStableStep legal sender st e := by
  have stable_of_state_eq :
      ∀ (st' : ServerState), st'.ongoingGames = st.ongoingGames →
        st'.sessions = st.sessions →
        ((∀ (i : Nat) (g g' : Game), st.ongoingGames[i]? = some g →
          st'.ongoingGames[i]? = some g' → colorsOf g' = colorsOf g) ∨
          List.Sublist st'.ongoingGames st.ongoingGames) ∧
        (∀ sid g r p, lookupSession st.sessions sid = some g → getSlot g r = some p →
          ∃ g', lookupSession st'.sessions sid = some g' ∧ getSlot g' r = some p) := by
    intro st' hog hss
    constructor
    · left
      intro i g g' hg hg'
      rw [hog] at hg'
      exact pointwiseColors_of_eq i g g' hg hg'
    · intro sid g r p hl hp
      rw [hss]
      exact ⟨g, hl, hp⟩
  have stable_setGame_board :
      ∀ (loc : GameLoc) (g : Game) (b : EnginePos), getGame st loc = some g →
        ((∀ (i : Nat) (gA gA' : Game), st.ongoingGames[i]? = some gA →
          (setGame st loc { g with boardState := b }).ongoingGames[i]? = some gA' →
          colorsOf gA' = colorsOf gA) ∨
          List.Sublist (setGame st loc { g with boardState := b }).ongoingGames
            st.ongoingGames) ∧
        (∀ sid g0 r p, lookupSession st.sessions sid = some g0 → getSlot g0 r = some p →
          ∃ g', lookupSession (setGame st loc { g with boardState := b }).sessions sid =
            some g' ∧ getSlot g' r = some p) := by
    intro loc g b hget
    refine ⟨?_, namedSlots_setGame_board hget⟩
    left
    cases loc with
    | anon i =>
      intro j gA gA' hg hg'
      simp only [setGame] at hg'
      exact pointwiseColors_set (by simpa [getGame] using hget)
        (show colorsOf { g with boardState := b } = colorsOf g from rfl) j gA gA' hg hg'
    | named sid0 =>
      intro j gA gA' hg hg'
      simp only [setGame] at hg'
      exact pointwiseColors_of_eq j gA gA' hg hg'
  unfold ColorsStableStep
  cases e with
  | newgame sName mName role =>
    cases hm : findMatchE st.ongoingGames sName mName 0 with
    | error err =>
      simp only [handleEvent, newgameHandler, hm]
      exact stable_of_state_eq st rfl rfl
    | ok res =>
      cases res with
      | none =>
        simp only [handleEvent, newgameHandler, hm]
        refine ⟨Or.inl ?_, ?_⟩
        · intro i g g' hg hg'
          exact pointwiseColors_append i g g' hg hg'
        · intro sid g r p hl hp
          exact ⟨g, hl, hp⟩
      | some ig =>
        obtain ⟨i, g⟩ := ig
        obtain ⟨k, hk0, hgk⟩ := findMatchE_sound st.ongoingGames 0 i g hm
        have hgi : st.ongoingGames[i]? = some g := by
          have : k = i := by omega
          rw [← this]
          exact hgk
        cases role with
        | student =>
          cases hgs : g.student with
          | none =>
            simp only [handleEvent, newgameHandler, hm, hgs]
            exact stable_of_state_eq st rfl rfl
          | some ps =>
            simp only [handleEvent, newgameHandler, hm, hgs]
            refine ⟨Or.inl ?_, fun sid g0 r p hl hp => ⟨g0, hl, hp⟩⟩
            intro j gA gA' hg hg'
            refine pointwiseColors_set hgi ?_ j gA gA' hg hg'
            simp [colorsOf, hgs]
        | mentor =>
          cases hgm : g.mentor with
          | none =>
            simp only [handleEvent, newgameHandler, hm, hgm]
            exact stable_of_state_eq st rfl rfl
          | some pm =>
            simp only [handleEvent, newgameHandler, hm, hgm]
            refine ⟨Or.inl ?_, fun sid g0 r p hl hp => ⟨g0, hl, hp⟩⟩
            intro j gA gA' hg hg'
            refine pointwiseColors_set hgi ?_ j gA gA' hg hg'
            simp [colorsOf, hgm]
  | createSession sid u role =>
    cases hl : lookupSession st.sessions sid with
    | some s =>
      simp only [handleEvent, createSessionHandler, hl]
      exact stable_of_state_eq st rfl rfl
    | none =>
      simp only [handleEvent, createSessionHandler, hl]
      refine ⟨Or.inl (pointwiseColors_of_eq), ?_⟩
      intro k g0 r p hlk hp
      refine ⟨g0, ?_, hp⟩
      rw [lookupSession_append_one, hlk]
  | joinSession sid u role =>
    cases hl : lookupSession st.sessions sid with
    | none =>
      simp only [handleEvent, joinSessionHandler, hl]
      exact stable_of_state_eq st rfl rfl
    | some s =>
      cases hslot : getSlot s role with
      | some p =>
        simp only [handleEvent, joinSessionHandler, hl, hslot]
        exact stable_of_state_eq st rfl rfl
      | none =>
        simp only [handleEvent, joinSessionHandler, hl, hslot]
        refine ⟨Or.inl (pointwiseColors_of_eq), ?_⟩
        intro k g0 r p hlk hp
        rw [lookupSession_setAssoc]
        by_cases hks : (k == sid) = true
        · rw [if_pos hks]
          have hks' : k = sid := by simpa using hks
          subst hks'
          rw [hlk] at hl ⊢
          obtain rfl := Option.some.inj hl
          exact ⟨_, rfl, getSlot_setSlot_preserve hslot r p hp⟩
        · rw [if_neg hks]
          exact ⟨g0, hlk, hp⟩
  | move m =>
    cases hf : findCurrentGameBySocket st sender with
    | none =>
      simp only [handleEvent, moveHandler, hf]
      exact stable_of_state_eq st rfl rfl
    | some loc =>
      cases hg : getGame st loc with
      | none =>
        simp only [handleEvent, moveHandler, hf, hg]
        exact stable_of_state_eq st rfl rfl
      | some g =>
        simp only [handleEvent, moveHandler, hf, hg]
        cases hmv : engineMove legal g.boardState m with
        | none => simpa using stable_setGame_board loc g g.boardState hg
        | some p => simpa using stable_setGame_board loc g p hg
  | endgame sName mName =>
    simp only [handleEvent, endgameHandler]
    refine ⟨Or.inr ?_, fun sid g r p hl hp => ⟨g, hl, hp⟩⟩
    exact endgameLoop_games_sublist st.connected sName mName
      st.ongoingGames.length 0 0 st.ongoingGames []
  | undo =>
    cases hf : findCurrentGameBySocket st sender with
    | none =>
      simp only [handleEvent, undoHandler, hf]
      exact stable_of_state_eq st rfl rfl
    | some loc =>
      cases hg : getGame st loc with
      | none =>
        simp only [handleEvent, undoHandler, hf, hg]
        exact stable_of_state_eq st rfl rfl
      | some g =>
        simp only [handleEvent, undoHandler, hf, hg]
        exact stable_setGame_board loc g (engineUndo g.boardState) hg
  | setstate s =>
    cases hf : findCurrentGameBySocket st sender with
    | none =>
      simp only [handleEvent, setstateHandler, hf]
      exact stable_of_state_eq st rfl rfl
    | some loc =>
      cases hg : getGame st loc with
      | none =>
        simp only [handleEvent, setstateHandler, hf, hg]
        exact stable_of_state_eq st rfl rfl
      | some g =>
        simp only [handleEvent, setstateHandler, hf, hg]
        exact stable_setGame_board loc g (chessFrom s) hg
  | lastmove f t =>
    exact stable_of_state_eq _ (by rw [show (handleEvent legal sender st
      (.lastmove f t)).state = (lastmoveHandler sender st f t).state from rfl,
      lastmoveHandler_state]) (by rw [show (handleEvent legal sender st
      (.lastmove f t)).state = (lastmoveHandler sender st f t).state from rfl,
      lastmoveHandler_state])
  | addgrey t =>
    exact stable_of_state_eq _
      (by rw [show (handleEvent legal sender st (.addgrey t)).state =
        (guardedRelayHandler sender st "addgrey" (.square t)).state from rfl,
        (guardedRelay_spec sender st "addgrey" (.square t)).1])
      (by rw [show (handleEvent legal sender st (.addgrey t)).state =
        (guardedRelayHandler sender st "addgrey" (.square t)).state from rfl,
        (guardedRelay_spec sender st "addgrey" (.square t)).1])
  | removegrey =>
    exact stable_of_state_eq _
      (by rw [show (handleEvent legal sender st .removegrey).state =
        (guardedRelayHandler sender st "removegrey" .emptyObj).state from rfl,
        (guardedRelay_spec sender st "removegrey" .emptyObj).1])
      (by rw [show (handleEvent legal sender st .removegrey).state =
        (guardedRelayHandler sender st "removegrey" .emptyObj).state from rfl,
        (guardedRelay_spec sender st "removegrey" .emptyObj).1])
  | mousexy x y =>
    exact stable_of_state_eq _
      (by rw [show (handleEvent legal sender st (.mousexy x y)).state =
        (guardedRelayHandler sender st "mousexy" (.xy x y)).state from rfl,
        (guardedRelay_spec sender st "mousexy" (.xy x y)).1])
      (by rw [show (handleEvent legal sender st (.mousexy x y)).state =
        (guardedRelayHandler sender st "mousexy" (.xy x y)).state from rfl,
        (guardedRelay_spec sender st "mousexy" (.xy x y)).1])
  | piecedrop =>
    exact stable_of_state_eq _
      (by rw [show (handleEvent legal sender st .piecedrop).state =
        (guardedRelayHandler sender st "piecedrop" .emptyObj).state from rfl,
        (guardedRelay_spec sender st "piecedrop" .emptyObj).1])
      (by rw [show (handleEvent legal sender st .piecedrop).state =
        (guardedRelayHandler sender st "piecedrop" .emptyObj).state from rfl,
        (guardedRelay_spec sender st "piecedrop" .emptyObj).1])
  | piecedrag p =>
    exact stable_of_state_eq _
      (by rw [show (handleEvent legal sender st (.piecedrag p)).state =
        (guardedRelayHandler sender st "piecedrag" (.pieceOf p)).state from rfl,
        (guardedRelay_spec sender st "piecedrag" (.pieceOf p)).1])
      (by rw [show (handleEvent legal sender st (.piecedrag p)).state =
        (guardedRelayHandler sender st "piecedrag" (.pieceOf p)).state from rfl,
        (guardedRelay_spec sender st "piecedrag" (.pieceOf p)).1])
  | highlight f t =>
    exact stable_of_state_eq _
      (by rw [show (handleEvent legal sender st (.highlight f t)).state =
        (guardedRelayHandler sender st "highlight" (.coords f t)).state from rfl,
        (guardedRelay_spec sender st "highlight" (.coords f t)).1])
      (by rw [show (handleEvent legal sender st (.highlight f t)).state =
        (guardedRelayHandler sender st "highlight" (.coords f t)).state from rfl,
        (guardedRelay_spec sender st "highlight" (.coords f t)).1])

theorem colorInv_rebind_student :
    ∀ (g : Game) (ps : Participant) (s : String), g.student = some ps → ColorInv g →
      ColorInv { g with student := some { ps with id := s } } := by
  intro g ps s hs h
  obtain ⟨h1, h2, h3⟩ := h
  refine ⟨?_, ?_, ?_⟩
  · intro p hp
    cases hp
    exact h1 ps hs
  · intro p hp
    exact h2 p hp
  · intro ps' pm hps' hpm
    cases hps'
    exact h3 ps pm hs hpm

theorem colorInv_rebind_mentor :
    ∀ (g : Game) (pm : Participant) (s : String), g.mentor = some pm → ColorInv g →
      ColorInv { g with mentor := some { pm with id := s } } := by
  intro g pm s hm h
  obtain ⟨h1, h2, h3⟩ := h
  refine ⟨?_, ?_, ?_⟩
  · intro p hp
    exact h1 p hp
  · intro p hp
    cases hp
    exact h2 pm hm
  · intro ps pm' hps hpm'
    cases hpm'
    exact h3 ps pm hps hm

theorem colorInv_newAnonGame :
    ∀ (sName mName : String) (role : Role) (sender : String),
      ColorInv (newAnonGame sName mName role sender) := by
  intro sName mName role sender
  cases role with
  | student =>
    refine ⟨?_, ?_, ?_⟩
    · intro p hp; cases hp; exact Or.inr rfl
    · intro p hp; cases hp; exact Or.inl rfl
    · intro ps pm hps hpm
      cases hps; cases hpm
      exact (by decide : ("black" : String) ≠ "white")
  | mentor =>
    refine ⟨?_, ?_, ?_⟩
    · intro p hp; cases hp; exact Or.inl rfl
    · intro p hp; cases hp; exact Or.inr rfl
    · intro ps pm hps hpm
      cases hps; cases hpm
      exact (by decide : ("white" : String) ≠ "black")

theorem namedColorInv_setSlot :
    ∀ (g : Game) (role : Role) (u s : String), NamedColorInv g →
      NamedColorInv (setSlot g role ⟨u, s, roleColorNamed role⟩) := by
  intro g role u s h
  obtain ⟨hm, hs⟩ := h
  cases role with
  | student =>
    refine ⟨fun p hp => hm p hp, ?_⟩
    intro p hp
    cases hp
    rfl
  | mentor =>
    refine ⟨?_, fun p hp => hs p hp⟩
    intro p hp
    cases hp
    rfl

theorem namedColorInv_newNamedGame :
    ∀ (u : String) (role : Role) (sender : String),
      NamedColorInv (newNamedGame u role sender) := by
  intro u role sender
  exact namedColorInv_setSlot _ role u sender
    ⟨fun p hp => Option.noConfusion hp, fun p hp => Option.noConfusion hp⟩

/-- C5: along every trace of handled events from server start, every game
in either store keeps complementary slot colors (each occupied slot is
white or black, both occupied slots differ, and in the named store the
mentor slot is always white and the student slot always black); no
dispatch ever changes the color of an already-assigned slot; and the
color pair of a newly created game is determined at creation from the
creating participant's declared role (anonymous: student creator gives
student black/mentor white, mentor creator the complement; named: the
creator's slot gets mentor-white/student-black). -/
theorem C5_complementary_colors (legal : Legality) (conn : List String)
    (tr : List (String × Event)) :
    StateColorInv (runTrace legal (startState conn) tr) ∧
    (∀ (sender : String) (e : Event),
      ColorsStableStep legal sender (runTrace legal (startState conn) tr) e) ∧
    (∀ (st : ServerState) (sender sName mName : String) (role : Role),
      findMatchE st.ongoingGames sName mName 0 = .ok none →
      (handleEvent legal sender st (.newgame sName mName role)).state.ongoingGames =
        st.ongoingGames ++ [newAnonGame sName mName role sender] ∧
      colorsOf (newAnonGame sName mName role sender) =
        (some (anonColors role).1, some (anonColors role).2) ∧
      (anonColors role).1 ≠ (anonColors role).2) ∧
    (∀ (st : ServerState) (sender sid u : String) (role : Role),
      lookupSession st.sessions sid = none →
      lookupSession
          (handleEvent legal sender st (.createSession sid u role)).state.sessions sid =
        some (newNamedGame u role sender) ∧
      getSlot (newNamedGame u role sender) role =
        some ⟨u, sender, roleColorNamed role⟩) := by
  refine ⟨?_, ?_, ?_, ?_⟩
  · have h := statePred_runTrace ColorInv NamedColorInv
      colorInv_rebind_student colorInv_rebind_mentor
      (fun g b h => h) colorInv_newAnonGame
      (fun g b h => h) namedColorInv_setSlot namedColorInv_newNamedGame
      legal tr (startState conn)
      (by intro g hg; simp [startState] at hg)
      (by intro sid g hg; simp [startState, lookupSession] at hg)
    exact h
  · intro sender e
    exact colorsStableStep_all legal sender _ e
  · intro st sender sName mName role hnone
    refine ⟨by simp [handleEvent, newgameHandler, hnone], rfl, ?_⟩
    cases role <;> decide
  · intro st sender sid u role hnone
    constructor
    · simp only [handleEvent, createSessionHandler, hnone]
      rw [lookupSession_append_one, hnone]
      simp
    · cases role <;> rfl

/-- Witness for C5: the trace in which socket s1 creates the Alice/Bob
game as student and m1 creates named session "abc" as mentor. -/
theorem C5_complementary_colors_witness :
    StateColorInv (runTrace legalNone (startState ["s1", "m1"])
      [("s1", .newgame "Alice" "Bob" .student), ("m1", .createSession "abc" "Bob" .mentor)]) ∧
    (∀ (sender : String) (e : Event),
      ColorsStableStep legalNone sender (runTrace legalNone (startState ["s1", "m1"])
        [("s1", .newgame "Alice" "Bob" .student),
          ("m1", .createSession "abc" "Bob" .mentor)]) e) ∧
    (∀ (st : ServerState) (sender sName mName : String) (role : Role),
      findMatchE st.ongoingGames sName mName 0 = .ok none →
      (handleEvent legalNone sender st (.newgame sName mName role)).state.ongoingGames =
        st.ongoingGames ++ [newAnonGame sName mName role sender] ∧
      colorsOf (newAnonGame sName mName role sender) =
        (some (anonColors role).1, some (anonColors role).2) ∧
      (anonColors role).1 ≠ (anonColors role).2) ∧
    (∀ (st : ServerState) (sender sid u : String) (role : Role),
      lookupSession st.sessions sid = none →
      lookupSession
          (handleEvent legalNone sender st (.createSession sid u role)).state.sessions sid =
        some (newNamedGame u role sender) ∧
      getSlot (newNamedGame u role sender) role =
        some ⟨u, sender, roleColorNamed role⟩) :=
  C5_complementary_colors legalNone ["s1", "m1"]
    [("s1", .newgame "Alice" "Bob" .student), ("m1", .createSession "abc" "Bob" .mentor)]

/-- C10: along every trace of handled events from server start, the
pastStates field of every game in either store is the empty list: it is
the empty list at creation and no handler ever writes it. -/
theorem C10_pastStates_empty (legal : Legality) (conn : List String)
    (tr : List (String × Event)) :
    PastStatesInv (runTrace legal (startState conn) tr) :=
  statePred_runTrace (fun g => g.pastStates = []) (fun g => g.pastStates = [])
    (fun g ps s hs h => h) (fun g pm s hm h => h)
    (fun g b h => h) (fun sName mName role sender => rfl)
    (fun g b h => h)
    (fun g role u s h => by cases role <;> exact h)
    (fun u role sender => by cases role <;> rfl)
    legal tr (startState conn)
    (by intro g hg; simp [startState] at hg)
    (by intro sid g hg; simp [startState, lookupSession] at hg)

/-- Witness for C10: the same two-event creation trace. -/
theorem C10_pastStates_empty_witness :
    PastStatesInv (runTrace legalNone (startState ["s1", "m1"])
      [("s1", .newgame "Alice" "Bob" .student),
        ("m1", .createSession "abc" "Bob" .mentor)]) :=
  C10_pastStates_empty legalNone ["s1", "m1"]
    [("s1", .newgame "Alice" "Bob" .student), ("m1", .createSession "abc" "Bob" .mentor)]

end ChessServer
